import Mathlib

/-
Verification of the fail-closed pipeline runner (src/runner).

The Python modules are shallowly embedded:

  * contracts.py     : enumerations, the Event record and its wire dict,
                       event builder helpers, StepDefinition;
  * state_machine.py : RunStateMachine transition table, RetryPolicy,
                       PipelineDAG with can_execute_step;
  * executor.py      : RunContext, StepExecutor.execute_step,
                       PipelineExecutor.execute (with start);
  * resume.py        : RunReconstructor, ResumeGuard, resume_run;
  * summary.py       : SummaryGenerator.generate.

Modelling conventions:

  * Python dicts keyed by step id become total functions String -> _ whose
    default agrees with initialize_steps (PENDING / 0); every execution the
    theorems speak about initializes all declared steps first, so the
    defaults are never observable.
  * uuid generation and the wall clock (Event.new_id, Event.now_utc) are
    environmental effects: event_id and timestamp_utc are modelled as the
    fixed string "" which no claim inspects.  time.sleep (retry backoff)
    only suspends and is dropped; backoff_seconds uses random jitter and
    is likewise environmental, no claim mentions it.
  * raising (ValueError, ResumeError) is modelled with Except.
  * every event-log append and every in-memory mutation of the run context
    is recorded, in program order, in a trace of TraceAction values; the event
    log is the projection of that trace onto its append actions.
  * the reason strings built with Python f-strings interpolating sets are
    reproduced with String.intercalate over the underlying list; where a
    claim only depends on which rejection branch fired, the reason is an
    inductive value carrying the interpolated data.
-/

/-- Run-level states (contracts.py RunState). -/
inductive RunState
  | created
  | preflight_validated
  | executing
  | blocked
  | failed
  | succeeded
  | rolled_back
deriving DecidableEq, Repr

/-- String value of a RunState (the str-enum payload). -/
def RunState.value : RunState → String
  | .created => "created"
  | .preflight_validated => "preflight_validated"
  | .executing => "executing"
  | .blocked => "blocked"
  | .failed => "failed"
  | .succeeded => "succeeded"
  | .rolled_back => "rolled_back"

/-- Parse a RunState from its string value (Python RunState(s); None models ValueError). -/
def RunState.fromString : String → Option RunState
  | "created" => some .created
  | "preflight_validated" => some .preflight_validated
  | "executing" => some .executing
  | "blocked" => some .blocked
  | "failed" => some .failed
  | "succeeded" => some .succeeded
  | "rolled_back" => some .rolled_back
  | _ => none

/-- Step-level states (contracts.py StepState). -/
inductive StepState
  | pending
  | running
  | succeeded
  | failed
  | compensated
  | skipped
deriving DecidableEq, Repr

/-- String value of a StepState. -/
def StepState.value : StepState → String
  | .pending => "pending"
  | .running => "running"
  | .succeeded => "succeeded"
  | .failed => "failed"
  | .compensated => "compensated"
  | .skipped => "skipped"

/-- Error classification for retry policy (contracts.py ErrorClass). -/
inductive ErrorClass
  | transient_io
  | contract_input_missing
  | hard_gate_failed
  | validation_failed
  | unknown
deriving DecidableEq, Repr

/-- String value of an ErrorClass. -/
def ErrorClass.value : ErrorClass → String
  | .transient_io => "transient_io"
  | .contract_input_missing => "contract_input_missing"
  | .hard_gate_failed => "hard_gate_failed"
  | .validation_failed => "validation_failed"
  | .unknown => "unknown"

/-- Event types emitted by the runner (contracts.py EventType). -/
inductive EventType
  | run_created
  | run_state_changed
  | step_started
  | step_succeeded
  | step_failed
  | step_retried
  | step_compensated
  | artifact_emitted
  | gate_failed
  | run_completed
  | run_override_applied
deriving DecidableEq, Repr

/-- String value of an EventType (dotted wire form). -/
def EventType.value : EventType → String
  | .run_created => "run.created"
  | .run_state_changed => "run.state_changed"
  | .step_started => "step.started"
  | .step_succeeded => "step.succeeded"
  | .step_failed => "step.failed"
  | .step_retried => "step.retried"
  | .step_compensated => "step.compensated"
  | .artifact_emitted => "artifact.emitted"
  | .gate_failed => "gate.failed"
  | .run_completed => "run.completed"
  | .run_override_applied => "run.override_applied"

/-- Entity triggering an event (contracts.py Actor). -/
inductive Actor
  | runner
  | manual
deriving DecidableEq, Repr

/-- String value of an Actor. -/
def Actor.value : Actor → String
  | .runner => "runner"
  | .manual => "manual"

/-- The base event contract (contracts.py Event).  event_id and timestamp_utc
are environmental (uuid / clock) and carried as opaque strings. -/
structure Event where
  event_id : String
  event_type : EventType
  run_id : String
  timestamp_utc : String
  actor : Actor
  attempt : Nat := 0
  step_id : Option String := none
  error_class : Option ErrorClass := none
  reason : Option String := none
  inputs_hash : Option String := none
  outputs_hash : Option String := none
  artifact_path : Option String := none
  previous_state : Option String := none
  new_state : Option String := none
  override_reason : Option String := none
deriving DecidableEq, Repr

/-- Values of the wire dict: JSON strings or integers. -/
inductive DictValue
  | str (s : String)
  | nat (n : Nat)
deriving DecidableEq, Repr

/-- The dict entry of one optional field: present only when the value is. -/
def optEntry {α : Type} (key : String) (o : Option α) (g : α → DictValue) :
    List (String × DictValue) :=
  match o with
  | some v => [(key, g v)]
  | none => []

/-- Event.to_dict: the six required fields unconditionally, then each optional
field only if present, enumerations encoded by their string value.  The dict
is modelled as an association list in insertion order. -/
def Event.to_dict (e : Event) : List (String × DictValue) :=
  [("event_id", .str e.event_id),
   ("event_type", .str e.event_type.value),
   ("run_id", .str e.run_id),
   ("timestamp_utc", .str e.timestamp_utc),
   ("actor", .str e.actor.value),
   ("attempt", .nat e.attempt)]
  ++ optEntry "step_id" e.step_id DictValue.str
  ++ optEntry "error_class" e.error_class (fun v => DictValue.str v.value)
  ++ optEntry "reason" e.reason DictValue.str
  ++ optEntry "inputs_hash" e.inputs_hash DictValue.str
  ++ optEntry "outputs_hash" e.outputs_hash DictValue.str
  ++ optEntry "artifact_path" e.artifact_path DictValue.str
  ++ optEntry "previous_state" e.previous_state DictValue.str
  ++ optEntry "new_state" e.new_state DictValue.str
  ++ optEntry "override_reason" e.override_reason DictValue.str

/-- Event builder run_created (contracts.py). -/
def run_created (run_id : String) (reason : Option String) : Event :=
  { event_id := "", event_type := .run_created, run_id := run_id,
    timestamp_utc := "", actor := .runner,
    new_state := some RunState.created.value, reason := reason }

/-- Event builder run_state_changed. -/
def run_state_changed (run_id : String) (previous_state new_state : RunState)
    (reason : Option String) : Event :=
  { event_id := "", event_type := .run_state_changed, run_id := run_id,
    timestamp_utc := "", actor := .runner,
    previous_state := some previous_state.value,
    new_state := some new_state.value, reason := reason }

/-- Event builder step_started. -/
def step_started (run_id step_id : String) (attempt : Nat) : Event :=
  { event_id := "", event_type := .step_started, run_id := run_id,
    step_id := some step_id, timestamp_utc := "", actor := .runner,
    attempt := attempt, new_state := some StepState.running.value }

/-- Event builder step_succeeded. -/
def step_succeeded (run_id step_id : String) (attempt : Nat)
    (outputs_hash : Option String) : Event :=
  { event_id := "", event_type := .step_succeeded, run_id := run_id,
    step_id := some step_id, timestamp_utc := "", actor := .runner,
    attempt := attempt, new_state := some StepState.succeeded.value,
    outputs_hash := outputs_hash }

/-- Event builder step_failed. -/
def step_failed (run_id step_id : String) (error_class : ErrorClass)
    (reason : String) (attempt : Nat) : Event :=
  { event_id := "", event_type := .step_failed, run_id := run_id,
    step_id := some step_id, timestamp_utc := "", actor := .runner,
    attempt := attempt, error_class := some error_class,
    reason := some reason, new_state := some StepState.failed.value }

/-- Event builder step_retried. -/
def step_retried (run_id step_id : String) (attempt : Nat) (reason : String) : Event :=
  { event_id := "", event_type := .step_retried, run_id := run_id,
    step_id := some step_id, timestamp_utc := "", actor := .runner,
    attempt := attempt, reason := some reason }

/-- Event builder gate_failed. -/
def gate_failed (run_id step_id : String) (error_class : ErrorClass)
    (reason : String) : Event :=
  { event_id := "", event_type := .gate_failed, run_id := run_id,
    step_id := some step_id, timestamp_utc := "", actor := .runner,
    error_class := some error_class, reason := some reason }

/-- Event builder run_completed. -/
def run_completed (run_id : String) (final_state : RunState)
    (reason : Option String) : Event :=
  { event_id := "", event_type := .run_completed, run_id := run_id,
    timestamp_utc := "", actor := .runner,
    new_state := some final_state.value, reason := reason }

/-- Pipeline step definition (contracts.py StepDefinition).  The name field is
display only. -/
structure StepDefinition where
  step_id : String
  name : String
  is_hard_gate : Bool := false
  is_manual_gated : Bool := false
  max_retries : Nat := 0
  retry_classes : List ErrorClass := [ErrorClass.transient_io]
deriving DecidableEq, Repr

/-- StepDefinition.allows_retry: no retry at or beyond max_retries, otherwise
retry iff the error class is among the step's retry classes. -/
def StepDefinition.allows_retry (step : StepDefinition) (error_class : ErrorClass)
    (current_attempt : Nat) : Bool :=
  if step.max_retries ≤ current_attempt then false
  else step.retry_classes.contains error_class

namespace RunStateMachine

/-- Valid run-state transitions (state_machine.py RunStateMachine.TRANSITIONS). -/
def TRANSITIONS : RunState → List RunState
  | .created => [.preflight_validated, .failed]
  | .preflight_validated => [.executing, .failed]
  | .executing => [.blocked, .failed, .succeeded]
  | .blocked => [.executing, .failed, .rolled_back]
  | .failed => [.rolled_back]
  | .succeeded => []
  | .rolled_back => []

/-- RunStateMachine.can_transition: membership in the transition table. -/
def can_transition (current target : RunState) : Bool :=
  (TRANSITIONS current).contains target

end RunStateMachine

namespace RetryPolicy

/-- RetryPolicy.allows_retry (state_machine.py): a hard gate never retries the
hard-gate-failure class; otherwise defer to the step's own policy. -/
def allows_retry (step : StepDefinition) (error_class : ErrorClass)
    (current_attempt : Nat) : Bool :=
  if step.is_hard_gate && error_class == ErrorClass.hard_gate_failed then false
  else step.allows_retry error_class current_attempt

end RetryPolicy

/-- Rejection reasons of PipelineDAG.can_execute_step.  The source interpolates
the offending sets into f-strings; the constructor identifies the branch and
carries the interpolated data. -/
inductive GateReason
  | unknownStep (step_id : String)
  | blockedByFailedHardGates (gates : List String)
  | missingUpstreamDependencies (missing : List String)
deriving DecidableEq, Repr

/-- Pipeline DAG: an ordered list of step definitions (state_machine.py
PipelineDAG keeps both a step_id-keyed dict and the id order; ids are expected
unique, as in PIPELINE_STEPS). -/
structure PipelineDAG where
  steps : List StepDefinition
deriving DecidableEq, Repr

namespace PipelineDAG

/-- The declared execution order (list of step ids). -/
def order (dag : PipelineDAG) : List String :=
  dag.steps.map (fun s => s.step_id)

/-- PipelineDAG.get_step: lookup by id. -/
def get_step (dag : PipelineDAG) (step_id : String) : Option StepDefinition :=
  dag.steps.find? (fun s => s.step_id == step_id)

/-- PipelineDAG.get_upstream_steps: all ids before the step in order
(empty when the id is undeclared, Python catches the ValueError). -/
def get_upstream_steps (dag : PipelineDAG) (step_id : String) : List String :=
  match dag.order.indexOf? step_id with
  | some idx => dag.order.take idx
  | none => []

/-- PipelineDAG.get_downstream_steps: all ids after the step in order. -/
def get_downstream_steps (dag : PipelineDAG) (step_id : String) : List String :=
  match dag.order.indexOf? step_id with
  | some idx => dag.order.drop (idx + 1)
  | none => []

/-- PipelineDAG.can_execute_step: unknown step, any upstream failed hard gate
(fail-closed), any upstream not completed, otherwise permitted.  The Python
set intersections and differences are computed as filters of the upstream
list. -/
def can_execute_step (dag : PipelineDAG) (step_id : String)
    (completed_steps failed_hard_gates : List String) : Bool × Option GateReason :=
  match dag.get_step step_id with
  | none => (false, some (GateReason.unknownStep step_id))
  | some _ =>
    let upstream := dag.get_upstream_steps step_id
    let blocked_by := upstream.filter (fun u => failed_hard_gates.contains u)
    if blocked_by.isEmpty then
      let missing := upstream.filter (fun u => !completed_steps.contains u)
      if missing.isEmpty then (true, none)
      else (false, some (GateReason.missingUpstreamDependencies missing))
    else (false, some (GateReason.blockedByFailedHardGates blocked_by))

end PipelineDAG

/-- The fixed pipeline of contracts.py (PIPELINE_STEPS). -/
def PIPELINE_STEPS : List StepDefinition :=
  [{ step_id := "preflight_contract_check", name := "Preflight contract check",
     is_hard_gate := true },
   { step_id := "phase_benchmark", name := "Phase benchmark",
     is_hard_gate := true, max_retries := 2 },
   { step_id := "stage_data_layout", name := "Stage data layout", max_retries := 3 },
   { step_id := "build_steward_bundle", name := "Build steward bundle", max_retries := 2 },
   { step_id := "validate_bundle_quality", name := "Validate bundle quality",
     is_hard_gate := true },
   { step_id := "build_minimal_deliverable", name := "Build minimal deliverable",
     max_retries := 2 },
   { step_id := "verify_artifacts", name := "Verify artifacts", is_hard_gate := true },
   { step_id := "publish_internal", name := "Publish internal", is_manual_gated := true }]

/-- Runtime execution context (executor.py RunContext).  The artifacts dict is
never written by the executor paths under verification and is omitted.  The
per-step dicts are total functions whose defaults match initialize_steps. -/
structure RunContext where
  run_id : String
  run_state : RunState
  step_states : String → StepState
  step_attempts : String → Nat
  completed_steps : List String
  failed_hard_gates : List String

/-- Pointwise update of a step-keyed dict. -/
def setKey {α : Type} (f : String → α) (k : String) (v : α) : String → α :=
  fun s => if s = k then v else f s

/-- Python set.add on the list model: append if not already present. -/
def setAdd (l : List String) (x : String) : List String :=
  if l.contains x then l else l ++ [x]

/-- RunContext.initialize_steps: every listed step PENDING with zero attempts. -/
def RunContext.initialize_steps (ctx : RunContext) (step_ids : List String) : RunContext :=
  step_ids.foldl
    (fun c step_id =>
      { c with step_states := setKey c.step_states step_id StepState.pending,
               step_attempts := setKey c.step_attempts step_id 0 })
    ctx

/-- Which in-memory field of the run context a mutation touches. -/
inductive CtxField
  | run_state
  | step_states
  | step_attempts
  | completed_steps
  | failed_hard_gates
deriving DecidableEq, Repr

/-- One primitive effect of the runner, in program order: an event-log append
or an in-memory mutation of the run context (tagged with the written value so
the temporal claims can match mutations to the events describing them). -/
inductive TraceAction
  | append (e : Event)
  | set_run_state (v : RunState)
  | set_step_state (step_id : String) (v : StepState)
  | set_step_attempt (step_id : String) (v : Nat)
  | add_completed (step_id : String)
  | add_failed_hard_gate (step_id : String)
deriving DecidableEq, Repr

/-- Executor state: the run context plus the trace of effects so far.  The
event log is the projection of the trace onto appends. -/
structure ExecState where
  ctx : RunContext
  trace : List TraceAction

/-- The event log: the appends of the trace, in order. -/
def ExecState.log (s : ExecState) : List Event :=
  s.trace.filterMap (fun a => match a with | .append e => some e | _ => none)

/-- event_log.append(event). -/
def appendEvent (s : ExecState) (e : Event) : ExecState :=
  { s with trace := s.trace ++ [TraceAction.append e] }

/-- ctx.step_states[step_id] = v. -/
def setStepState (s : ExecState) (step_id : String) (v : StepState) : ExecState :=
  { ctx := { s.ctx with step_states := setKey s.ctx.step_states step_id v },
    trace := s.trace ++ [TraceAction.set_step_state step_id v] }

/-- ctx.step_attempts[step_id] = v. -/
def setStepAttempt (s : ExecState) (step_id : String) (v : Nat) : ExecState :=
  { ctx := { s.ctx with step_attempts := setKey s.ctx.step_attempts step_id v },
    trace := s.trace ++ [TraceAction.set_step_attempt step_id v] }

/-- ctx.completed_steps.add(step_id). -/
def addCompleted (s : ExecState) (step_id : String) : ExecState :=
  { ctx := { s.ctx with completed_steps := setAdd s.ctx.completed_steps step_id },
    trace := s.trace ++ [TraceAction.add_completed step_id] }

/-- ctx.failed_hard_gates.add(step_id). -/
def addFailedHardGate (s : ExecState) (step_id : String) : ExecState :=
  { ctx := { s.ctx with failed_hard_gates := setAdd s.ctx.failed_hard_gates step_id },
    trace := s.trace ++ [TraceAction.add_failed_hard_gate step_id] }

/-- ctx.run_state = v. -/
def setRunState (s : ExecState) (v : RunState) : ExecState :=
  { ctx := { s.ctx with run_state := v },
    trace := s.trace ++ [TraceAction.set_run_state v] }

/-- A step callable: (context, step_id) to (success, error_class, message)
(executor.py StepFunction). -/
def StepFunction : Type :=
  RunContext → String → Bool × Option ErrorClass × Option String

/-- The injected step_functions mapping (Python dict.get: none when absent). -/
def StepFunctions : Type := String → Option StepFunction

/-- StepExecutor._emit_and_fail: step.failed event then mark the step FAILED. -/
def emit_and_fail (s : ExecState) (step : StepDefinition) (error_class : ErrorClass)
    (reason : String) : ExecState :=
  let s := appendEvent s (step_failed s.ctx.run_id step.step_id error_class reason
    (s.ctx.step_attempts step.step_id))
  setStepState s step.step_id StepState.failed

/-- One pass of StepExecutor.execute_step (executor.py lines 87-179): emit
step.started, run the callable, then branch on success / hard gate / retry
policy exactly as the source does.  The Python tail recursion on retry
(line 175) is the continuation k, invoked on the state after the attempt
counter increment and the step.retried append. -/
def executeStepOnce (sf : StepFunctions) (step : StepDefinition)
    (k : ExecState → Bool × ExecState) (s : ExecState) : Bool × ExecState :=
  match sf step.step_id with
  | none =>
    (false, emit_and_fail s step ErrorClass.unknown
      ("No implementation for step: " ++ step.step_id))
  | some step_func =>
    let attempt := s.ctx.step_attempts step.step_id
    let s1 := appendEvent s (step_started s.ctx.run_id step.step_id attempt)
    let s2 := setStepState s1 step.step_id StepState.running
    match step_func s2.ctx step.step_id with
    | (true, _, _) =>
      let s3 := appendEvent s2 (step_succeeded s2.ctx.run_id step.step_id attempt none)
      let s4 := setStepState s3 step.step_id StepState.succeeded
      (true, addCompleted s4 step.step_id)
    | (false, ec, msg) =>
      let error_class := ec.getD ErrorClass.unknown
      let reason := msg.getD "Step failed"
      let s3 := appendEvent s2
        (step_failed s2.ctx.run_id step.step_id error_class reason attempt)
      if step.is_hard_gate then
        let s4 := appendEvent s3 (gate_failed s3.ctx.run_id step.step_id error_class reason)
        let s5 := addFailedHardGate s4 step.step_id
        (false, setStepState s5 step.step_id StepState.failed)
      else if RetryPolicy.allows_retry step error_class attempt then
        let s4 := setStepAttempt s3 step.step_id (s3.ctx.step_attempts step.step_id + 1)
        let new_attempt := s4.ctx.step_attempts step.step_id
        let s5 := appendEvent s4 (step_retried s4.ctx.run_id step.step_id new_attempt
          ("Retrying after " ++ error_class.value))
        k s5
      else
        (false, setStepState s3 step.step_id StepState.failed)

/-- The retry recursion over explicit fuel.  A retry pass only recurses when
allows_retry holds, which needs the current attempt below max_retries, and
each pass raises the attempt counter by one, so from executeStep's initial
fuel the zero-fuel continuation (which ends the step as FAILED without
another pass) is unreachable: executeStepGo_fuel_stable makes this precise. -/
def executeStepGo (sf : StepFunctions) (step : StepDefinition) :
    Nat → ExecState → Bool × ExecState
  | 0 => executeStepOnce sf step
      (fun s5 => (false, setStepState s5 step.step_id StepState.failed))
  | fuel + 1 => executeStepOnce sf step (executeStepGo sf step fuel)

/-- StepExecutor.execute_step: the fuel max_retries + 1 always suffices. -/
def executeStep (sf : StepFunctions) (s : ExecState) (step : StepDefinition) :
    Bool × ExecState :=
  executeStepGo sf step (step.max_retries + 1) s

/-- A permitted retry means the current attempt is below max_retries. -/
theorem allows_retry_lt_max (step : StepDefinition) (ec : ErrorClass) (a : Nat)
    (h : RetryPolicy.allows_retry step ec a = true) : a < step.max_retries := by
  simp only [RetryPolicy.allows_retry, StepDefinition.allows_retry] at h
  split at h
  · cases h
  · by_cases hle : step.max_retries ≤ a
    · simp [hle] at h
    · omega

/-- The retry continuation only matters on states whose attempt counter is one
above the current one, and only when a retry is permitted at all. -/
theorem executeStepOnce_congr (sf : StepFunctions) (step : StepDefinition)
    (k1 k2 : ExecState → Bool × ExecState) (s : ExecState)
    (h : ∀ s', s'.ctx.step_attempts step.step_id = s.ctx.step_attempts step.step_id + 1 →
      s.ctx.step_attempts step.step_id < step.max_retries → k1 s' = k2 s') :
    executeStepOnce sf step k1 s = executeStepOnce sf step k2 s := by
  rcases hf : sf step.step_id with _ | f
  · simp [executeStepOnce, hf]
  · simp only [executeStepOnce, hf]
    rcases hr : f (setStepState (appendEvent s (step_started s.ctx.run_id step.step_id
        (s.ctx.step_attempts step.step_id))) step.step_id StepState.running).ctx
        step.step_id with ⟨ok, ec, msg⟩
    cases ok
    · simp only [hr]
      by_cases hh : step.is_hard_gate
      · simp [hh]
      · by_cases hretry : RetryPolicy.allows_retry step (ec.getD ErrorClass.unknown)
            (s.ctx.step_attempts step.step_id)
        · have hlt := allows_retry_lt_max step (ec.getD ErrorClass.unknown)
            (s.ctx.step_attempts step.step_id) hretry
          simp only [hh, hretry, if_true, if_false, Bool.false_eq_true]
          apply h
          · simp [appendEvent, setStepState, setStepAttempt, setKey]
          · exact hlt
        · simp [hh, hretry]
    · simp [hr]

/-- Fuel beyond what executeStep supplies never changes executeStepGo. -/
theorem executeStepGo_fuel_stable (sf : StepFunctions) (step : StepDefinition) :
    ∀ (fuel : Nat) (s : ExecState),
      step.max_retries ≤ s.ctx.step_attempts step.step_id + fuel →
      ∀ extra, executeStepGo sf step (fuel + extra) s = executeStepGo sf step fuel s := by
  intro fuel
  induction fuel with
  | zero =>
    intro s h extra
    cases extra with
    | zero => rfl
    | succ e =>
      have hz : (0 : Nat) + (e + 1) = e + 1 := by omega
      rw [hz]
      show executeStepOnce sf step (executeStepGo sf step e) s = _
      apply executeStepOnce_congr
      intro s' _ hlt
      omega
  | succ fuel ihf =>
    intro s h extra
    have hre : fuel + 1 + extra = (fuel + extra) + 1 := by omega
    rw [hre]
    show executeStepOnce sf step (executeStepGo sf step (fuel + extra)) s
      = executeStepOnce sf step (executeStepGo sf step fuel) s
    apply executeStepOnce_congr
    intro s' ha _
    apply ihf
    omega

/-- PipelineExecutor._transition_run_state: validate the transition (ValueError
modelled as Except.error), append run.state_changed, then update run_state. -/
def transition_run_state (s : ExecState) (new_state : RunState)
    (reason : Option String) : Except String ExecState :=
  if RunStateMachine.can_transition s.ctx.run_state new_state then
    let s1 := appendEvent s (run_state_changed s.ctx.run_id s.ctx.run_state new_state reason)
    Except.ok (setRunState s1 new_state)
  else
    Except.error ("Invalid run state transition: " ++ s.ctx.run_state.value
      ++ " -> " ++ new_state.value)

/-- PipelineExecutor._fail_run: transition to FAILED unless already there, then
append run.completed with FAILED. -/
def fail_run (s : ExecState) (reason : String) : Except String ExecState := do
  let s1 ←
    if s.ctx.run_state ≠ RunState.failed then
      transition_run_state s RunState.failed (some reason)
    else pure s
  Except.ok (appendEvent s1 (run_completed s1.ctx.run_id RunState.failed (some reason)))

/-- PipelineExecutor._complete_run: transition to the final state unless
already there, then append run.completed with it. -/
def complete_run (s : ExecState) (final_state : RunState) (reason : String) :
    Except String ExecState := do
  let s1 ←
    if s.ctx.run_state ≠ final_state then
      transition_run_state s final_state (some reason)
    else pure s
  Except.ok (appendEvent s1 (run_completed s1.ctx.run_id final_state (some reason)))

/-- The downstream-skip loop of the hard-gate branch (executor.py lines
365-368): every downstream step still PENDING is set to SKIPPED in memory. -/
def skipPendingDownstream (s : ExecState) (downstream : List String) : ExecState :=
  downstream.foldl
    (fun s ds =>
      if s.ctx.step_states ds = StepState.pending then setStepState s ds StepState.skipped
      else s)
    s

/-- The step loop of PipelineExecutor.execute (lines 345-383), as recursion on
the remaining order, followed by the completion branch (lines 375-383): a
failed hard gate skips its downstream and fails the run immediately; other
failures continue; at the end the run fails if any hard gate is recorded and
succeeds otherwise. -/
def executeSteps (dag : PipelineDAG) (sf : StepFunctions) :
    List String → ExecState → Except String ExecState
  | [], s =>
    if s.ctx.failed_hard_gates.isEmpty then
      complete_run s RunState.succeeded "All steps succeeded"
    else
      fail_run s ("Hard gate failures: " ++ String.intercalate ", " s.ctx.failed_hard_gates)
  | step_id :: rest, s =>
    match dag.get_step step_id with
    | none => executeSteps dag sf rest s
    | some step =>
      let gate := dag.can_execute_step step_id s.ctx.completed_steps s.ctx.failed_hard_gates
      if gate.1 then
        let r := executeStep sf s step
        if r.1 then executeSteps dag sf rest r.2
        else if step.is_hard_gate then
          let s1 := skipPendingDownstream r.2 (dag.get_downstream_steps step_id)
          fail_run s1 ("Hard gate failed: " ++ step_id)
        else executeSteps dag sf rest r.2
      else
        executeSteps dag sf rest (setStepState s step_id StepState.skipped)

/-- PipelineExecutor.start: append run.created and return a fresh context in
CREATED with every declared step initialized to PENDING / zero attempts.  The
pre-initialization dict defaults already equal what initialize_steps writes. -/
def start (dag : PipelineDAG) (run_id : String) (reason : Option String) : ExecState :=
  let ctx0 : RunContext :=
    { run_id := run_id, run_state := RunState.created,
      step_states := fun _ => StepState.pending, step_attempts := fun _ => 0,
      completed_steps := [], failed_hard_gates := [] }
  let s := appendEvent { ctx := ctx0, trace := [] } (run_created run_id reason)
  { s with ctx := s.ctx.initialize_steps dag.order }

/-- PipelineExecutor.execute: the two opening transitions, then the step loop. -/
def execute (dag : PipelineDAG) (sf : StepFunctions) (s : ExecState) :
    Except String ExecState := do
  let s1 ← transition_run_state s RunState.preflight_validated
    (some "Pre-execution validation passed")
  let s2 ← transition_run_state s1 RunState.executing none
  executeSteps dag sf dag.order s2

/-- A full fresh run: start then execute. -/
def executePipeline (dag : PipelineDAG) (sf : StepFunctions) (run_id : String)
    (reason : Option String) : Except String ExecState :=
  execute dag sf (start dag run_id reason)

/-- RunReconstructor._apply_event (resume.py): replay one event into the
context.  Missing required dict keys (KeyError) and unparseable state strings
(ValueError) are modelled as Except.error. -/
def applyEvent (ctx : RunContext) (e : Event) : Except String RunContext :=
  match e.event_type with
  | .run_state_changed =>
    match e.new_state with
    | some ns =>
      match RunState.fromString ns with
      | some st => Except.ok { ctx with run_state := st }
      | none => Except.error ("ValueError: invalid RunState " ++ ns)
    | none => Except.error "KeyError: new_state"
  | .run_completed =>
    match e.new_state with
    | some ns =>
      match RunState.fromString ns with
      | some st => Except.ok { ctx with run_state := st }
      | none => Except.error ("ValueError: invalid RunState " ++ ns)
    | none => Except.error "KeyError: new_state"
  | .step_started =>
    match e.step_id with
    | some sid =>
      Except.ok { ctx with step_states := setKey ctx.step_states sid StepState.running,
                           step_attempts := setKey ctx.step_attempts sid e.attempt }
    | none => Except.error "KeyError: step_id"
  | .step_succeeded =>
    match e.step_id with
    | some sid =>
      Except.ok { ctx with step_states := setKey ctx.step_states sid StepState.succeeded,
                           completed_steps := setAdd ctx.completed_steps sid }
    | none => Except.error "KeyError: step_id"
  | .step_failed =>
    match e.step_id with
    | some sid =>
      Except.ok { ctx with step_states := setKey ctx.step_states sid StepState.failed }
    | none => Except.error "KeyError: step_id"
  | .gate_failed =>
    match e.step_id with
    | some sid =>
      Except.ok { ctx with failed_hard_gates := setAdd ctx.failed_hard_gates sid }
    | none => Except.error "KeyError: step_id"
  | .step_retried =>
    match e.step_id with
    | some sid =>
      Except.ok { ctx with step_attempts := setKey ctx.step_attempts sid e.attempt,
                           step_states := setKey ctx.step_states sid StepState.pending }
    | none => Except.error "KeyError: step_id"
  | _ => Except.ok ctx

/-- RunReconstructor.reconstruct: reject an empty log or a log whose first
event is not run.created, then replay every event over a context that starts
CREATED with all PIPELINE_STEPS steps PENDING at zero attempts. -/
def reconstruct (events : List Event) : Except String RunContext :=
  match events with
  | [] => Except.error "Event log is empty"
  | first :: _ =>
    if first.event_type = EventType.run_created then
      let ctx0 : RunContext :=
        { run_id := first.run_id, run_state := RunState.created,
          step_states := fun _ => StepState.pending, step_attempts := fun _ => 0,
          completed_steps := [], failed_hard_gates := [] }
      let ctx0 := ctx0.initialize_steps (PIPELINE_STEPS.map (fun s => s.step_id))
      events.foldlM applyEvent ctx0
    else
      Except.error ("First event must be run.created, got " ++ first.event_type.value)

/-- Rejection reasons of ResumeGuard.can_resume (the source interpolates the
data into f-strings; the constructor names the branch). -/
inductive ResumeReason
  | terminalState (v : String)
  | hardGateFailures (gates : List String)
  | unknownRunState (v : String)
deriving DecidableEq, Repr

/-- Rendering of a ResumeReason as the source's message string. -/
def ResumeReason.render : ResumeReason → String
  | .terminalState v => "Run in terminal state: " ++ v
  | .hardGateFailures gates =>
    "Hard gate failures block resume: " ++ String.intercalate ", " gates
  | .unknownRunState v => "Unknown run state: " ++ v

/-- Does a reason come from the final fallback branch of can_resume. -/
def ResumeReason.is_unknown_state : ResumeReason → Bool
  | .unknownRunState _ => true
  | _ => false

namespace ResumeGuard

/-- Terminal run states that cannot be resumed (resume.py). -/
def TERMINAL_STATES : List RunState := [RunState.succeeded, RunState.rolled_back]

/-- ResumeGuard.can_resume: terminal states never; FAILED only with no failed
hard gates; BLOCKED and the in-progress states always; a final fallback for
anything else. -/
def can_resume (ctx : RunContext) : Bool × Option ResumeReason :=
  if TERMINAL_STATES.contains ctx.run_state then
    (false, some (ResumeReason.terminalState ctx.run_state.value))
  else if ctx.run_state = RunState.failed then
    if ctx.failed_hard_gates.isEmpty then (true, none)
    else (false, some (ResumeReason.hardGateFailures ctx.failed_hard_gates))
  else if ctx.run_state = RunState.blocked then (true, none)
  else if ctx.run_state = RunState.created ∨ ctx.run_state = RunState.preflight_validated
      ∨ ctx.run_state = RunState.executing then (true, none)
  else (false, some (ResumeReason.unknownRunState ctx.run_state.value))

/-- ResumeGuard.validate_resume: raise ResumeError when can_resume refuses. -/
def validate_resume (ctx : RunContext) : Except String Unit :=
  let r := can_resume ctx
  if r.1 then Except.ok ()
  else Except.error ("Cannot resume run: " ++ ((r.2.map ResumeReason.render).getD "None"))

end ResumeGuard

/-- resume_run (resume.py): reconstruct the context from the read events, then
validate resumability; the reconstructed context is returned on success.  The
events.jsonl read itself is file I/O and is abstracted: the function takes the
decoded event list. -/
def resume_run (events : List Event) : Except String RunContext := do
  let ctx ← reconstruct events
  let _ ← ResumeGuard.validate_resume ctx
  Except.ok ctx

/-- Summary of a single step execution (summary.py StepSummary).  duration_ms
and completed_at are never written by SummaryGenerator.generate and stay at
their defaults. -/
structure StepSummary where
  step_id : String
  state : StepState
  attempts : Nat := 0
  error_class : Option ErrorClass := none
  error_reason : Option String := none
  duration_ms : Option Nat := none
  started_at : Option String := none
  completed_at : Option String := none
deriving DecidableEq, Repr

/-- Summary of a complete run (summary.py RunSummary).  duration_ms is derived
from ISO timestamps, which are environmental here, so it is not modelled. -/
structure RunSummary where
  run_id : String
  final_state : RunState
  created_at : String
  completed_at : Option String := none
  steps : List StepSummary := []
  completed_steps : Nat := 0
  failed_steps : Nat := 0
  skipped_steps : Nat := 0
  failed_hard_gates : List String := []
  total_attempts : Nat := 0
  total_retries : Nat := 0
deriving DecidableEq, Repr

/-- Insertion of a string into a sorted list (ascending). -/
def insertSorted (x : String) : List String → List String
  | [] => [x]
  | y :: rest => if x ≤ y then x :: y :: rest else y :: insertSorted x rest

/-- Python sorted() on a list of strings, as insertion sort. -/
def sortStrings (l : List String) : List String :=
  l.foldr insertSorted []

/-- Python dict assignment on the association-list model: replace the value in
place if the key exists, else append. -/
def dictSet {α : Type} (l : List (String × α)) (k : String) (v : α) :
    List (String × α) :=
  if l.any (fun p => p.1 == k) then
    l.map (fun p => if p.1 == k then (k, v) else p)
  else l ++ [(k, v)]

/-- The mutable accumulators of SummaryGenerator.generate's event loop. -/
structure SummaryAcc where
  final_state : RunState
  completed_at : Option String
  step_states : List (String × StepState)
  step_attempts : List (String × Nat)
  step_start_times : List (String × String)
  step_errors : List (String × (Option ErrorClass × Option String))
  gate_failures : List String
  retry_count : Nat

/-- One iteration of SummaryGenerator.generate's event loop (summary.py lines
181-212). -/
def summaryApplyEvent (acc : SummaryAcc) (e : Event) : Except String SummaryAcc :=
  match e.event_type with
  | .run_state_changed =>
    match e.new_state with
    | some ns =>
      match RunState.fromString ns with
      | some st => Except.ok { acc with final_state := st, completed_at := some e.timestamp_utc }
      | none => Except.error ("ValueError: invalid RunState " ++ ns)
    | none => Except.error "KeyError: new_state"
  | .run_completed =>
    match e.new_state with
    | some ns =>
      match RunState.fromString ns with
      | some st => Except.ok { acc with final_state := st, completed_at := some e.timestamp_utc }
      | none => Except.error ("ValueError: invalid RunState " ++ ns)
    | none => Except.error "KeyError: new_state"
  | .step_started =>
    match e.step_id with
    | some sid =>
      Except.ok { acc with step_states := dictSet acc.step_states sid StepState.running,
                           step_attempts := dictSet acc.step_attempts sid e.attempt,
                           step_start_times := dictSet acc.step_start_times sid e.timestamp_utc }
    | none => Except.error "KeyError: step_id"
  | .step_succeeded =>
    match e.step_id with
    | some sid =>
      Except.ok { acc with step_states := dictSet acc.step_states sid StepState.succeeded }
    | none => Except.error "KeyError: step_id"
  | .step_failed =>
    match e.step_id with
    | some sid =>
      Except.ok { acc with step_states := dictSet acc.step_states sid StepState.failed,
                           step_errors := dictSet acc.step_errors sid (e.error_class, e.reason) }
    | none => Except.error "KeyError: step_id"
  | .step_retried =>
    Except.ok { acc with retry_count := acc.retry_count + 1 }
  | .gate_failed =>
    match e.step_id with
    | some sid =>
      Except.ok { acc with gate_failures := setAdd acc.gate_failures sid }
    | none => Except.error "KeyError: step_id"
  | _ => Except.ok acc

/-- Build the per-step summary for one key of the step_states dict
(summary.py lines 215-231). -/
def buildStepSummary (acc : SummaryAcc) (k : String) : StepSummary :=
  { step_id := k,
    state := (acc.step_states.lookup k).getD StepState.pending,
    attempts := (acc.step_attempts.lookup k).getD 0 + 1,
    error_class := ((acc.step_errors.lookup k).map Prod.fst).getD none,
    error_reason := ((acc.step_errors.lookup k).map Prod.snd).getD none,
    started_at := acc.step_start_times.lookup k }

/-- SummaryGenerator.generate (summary.py lines 150-254): reject an empty log,
replay the events into the accumulators, then build step summaries for the
sorted keys of step_states, count outcomes and total retries, and sort the
failed hard gates.  Only steps that produced step events have keys, so only
those receive summaries. -/
def SummaryGenerator.generate (events : List Event) : Except String RunSummary :=
  match events with
  | [] => Except.error "Event log is empty"
  | first :: _ => do
    let acc0 : SummaryAcc :=
      { final_state := RunState.created, completed_at := none, step_states := [],
        step_attempts := [], step_start_times := [], step_errors := [],
        gate_failures := [], retry_count := 0 }
    let acc ← events.foldlM summaryApplyEvent acc0
    let keys := sortStrings (acc.step_states.map Prod.fst)
    let steps := keys.map (buildStepSummary acc)
    Except.ok
      { run_id := first.run_id,
        final_state := acc.final_state,
        created_at := first.timestamp_utc,
        completed_at := acc.completed_at,
        steps := steps,
        completed_steps := (steps.filter (fun st => st.state == StepState.succeeded)).length,
        failed_steps := (steps.filter (fun st => st.state == StepState.failed)).length,
        skipped_steps := (steps.filter (fun st => st.state == StepState.skipped)).length,
        failed_hard_gates := sortStrings acc.gate_failures,
        total_attempts := (steps.map (fun st => st.attempts)).sum,
        total_retries := acc.retry_count }

/-! Basic lemmas about the executor primitives. -/

theorem setKey_same {α : Type} (f : String → α) (k : String) (v : α) :
    setKey f k v k = v := by
  simp [setKey]

theorem setKey_other {α : Type} (f : String → α) (k x : String) (v : α)
    (h : x ≠ k) : setKey f k v x = f x := by
  simp [setKey, h]

theorem log_append_event (s : ExecState) (e : Event) :
    (appendEvent s e).log = s.log ++ [e] := by
  simp [ExecState.log, appendEvent]

theorem log_set_step_state (s : ExecState) (k : String) (v : StepState) :
    (setStepState s k v).log = s.log := by
  simp [ExecState.log, setStepState]

theorem log_set_step_attempt (s : ExecState) (k : String) (v : Nat) :
    (setStepAttempt s k v).log = s.log := by
  simp [ExecState.log, setStepAttempt]

theorem log_add_completed (s : ExecState) (k : String) :
    (addCompleted s k).log = s.log := by
  simp [ExecState.log, addCompleted]

theorem log_add_failed_hard_gate (s : ExecState) (k : String) :
    (addFailedHardGate s k).log = s.log := by
  simp [ExecState.log, addFailedHardGate]

theorem log_set_run_state (s : ExecState) (v : RunState) :
    (setRunState s v).log = s.log := by
  simp [ExecState.log, setRunState]

/-- Lookup distributes over append of association lists. -/
theorem lookup_append (l1 l2 : List (String × DictValue)) (k : String) :
    (l1 ++ l2).lookup k = ((l1.lookup k).or (l2.lookup k)) := by
  induction l1 with
  | nil => simp [List.lookup]
  | cons p rest ihl =>
    by_cases h : k == p.1
    · simp [List.lookup, h]
    · simp [List.lookup, h, ihl]

/-- Lookup of an optional entry under its own key. -/
theorem lookup_optEntry_same {α : Type} (key : String) (o : Option α)
    (g : α → DictValue) : (optEntry key o g).lookup key = o.map g := by
  cases o <;> simp [optEntry, List.lookup]

/-- Lookup of an optional entry under any other key. -/
theorem lookup_optEntry_other {α : Type} (key k : String) (o : Option α)
    (g : α → DictValue) (h : ¬(k == key) = true) :
    (optEntry key o g).lookup k = none := by
  cases o <;> simp [optEntry, List.lookup, h]

/-- C8: for every Event, the wire dict of to_dict carries the six required
fields unconditionally, carries each optional field exactly when it is
present (lookup returns the mapped value of the Option field, so a key is
absent exactly when the field is none), and encodes event_type, actor and
error_class by their string enum values. -/
theorem to_dict_required_optional_enums (e : Event) :
    e.to_dict.lookup "event_id" = some (DictValue.str e.event_id) ∧
    e.to_dict.lookup "event_type" = some (DictValue.str e.event_type.value) ∧
    e.to_dict.lookup "run_id" = some (DictValue.str e.run_id) ∧
    e.to_dict.lookup "timestamp_utc" = some (DictValue.str e.timestamp_utc) ∧
    e.to_dict.lookup "actor" = some (DictValue.str e.actor.value) ∧
    e.to_dict.lookup "attempt" = some (DictValue.nat e.attempt) ∧
    e.to_dict.lookup "step_id" = e.step_id.map DictValue.str ∧
    e.to_dict.lookup "error_class" = e.error_class.map (fun c => DictValue.str c.value) ∧
    e.to_dict.lookup "reason" = e.reason.map DictValue.str ∧
    e.to_dict.lookup "inputs_hash" = e.inputs_hash.map DictValue.str ∧
    e.to_dict.lookup "outputs_hash" = e.outputs_hash.map DictValue.str ∧
    e.to_dict.lookup "artifact_path" = e.artifact_path.map DictValue.str ∧
    e.to_dict.lookup "previous_state" = e.previous_state.map DictValue.str ∧
    e.to_dict.lookup "new_state" = e.new_state.map DictValue.str ∧
    e.to_dict.lookup "override_reason" = e.override_reason.map DictValue.str := by
  refine ⟨rfl, rfl, rfl, rfl, rfl, rfl, ?_, ?_, ?_, ?_, ?_, ?_, ?_, ?_, ?_⟩ <;>
    simp [Event.to_dict, List.lookup, lookup_append, lookup_optEntry_same,
      lookup_optEntry_other]

/-- The DAG gating rule as the specification words it (spec section 4.3 /
claim C5): reject unknown ids; reject when ANY upstream step is among the
failed hard gates (fail-closed), naming those gates; reject when any upstream
step is absent from the completed set, naming the missing ones; otherwise
permit.  Stated with existential (any) tests to compare against the source's
filter-emptiness tests. -/
def can_execute_step_claim (dag : PipelineDAG) (step_id : String)
    (completed_steps failed_hard_gates : List String) : Bool × Option GateReason :=
  if (dag.get_step step_id).isNone then
    (false, some (GateReason.unknownStep step_id))
  else if (dag.get_upstream_steps step_id).any (fun u => failed_hard_gates.contains u) then
    (false, some (GateReason.blockedByFailedHardGates
      ((dag.get_upstream_steps step_id).filter (fun u => failed_hard_gates.contains u))))
  else if (dag.get_upstream_steps step_id).any (fun u => !completed_steps.contains u) then
    (false, some (GateReason.missingUpstreamDependencies
      ((dag.get_upstream_steps step_id).filter (fun u => !completed_steps.contains u))))
  else (true, none)

/-- A filter is empty exactly when no element satisfies the predicate. -/
theorem filter_isEmpty_eq_not_any {α : Type} (l : List α) (p : α → Bool) :
    (l.filter p).isEmpty = !l.any p := by
  induction l with
  | nil => simp
  | cons x rest ihl =>
    by_cases h : p x
    · simp [List.filter, h]
    · simp only [List.filter, h, List.any_cons]
      simp [ihl, h]

/-- C5: PipelineDAG.can_execute_step decides exactly the rule of the claim:
unknown step, else blocked by failed upstream hard gates, else missing
upstream dependencies, else permitted, with the corresponding reason. -/
theorem can_execute_step_meets_claim (dag : PipelineDAG) (step_id : String)
    (completed_steps failed_hard_gates : List String) :
    dag.can_execute_step step_id completed_steps failed_hard_gates =
      can_execute_step_claim dag step_id completed_steps failed_hard_gates := by
  unfold PipelineDAG.can_execute_step can_execute_step_claim
  cases hs : dag.get_step step_id with
  | none => simp
  | some st =>
    simp only [Option.isNone_some, Bool.false_eq_true, if_false]
    rw [filter_isEmpty_eq_not_any, filter_isEmpty_eq_not_any]
    cases hb : (dag.get_upstream_steps step_id).any
        (fun u => failed_hard_gates.contains u) <;>
      cases hm : (dag.get_upstream_steps step_id).any
        (fun u => !completed_steps.contains u) <;>
      simp only [hb, hm, Bool.not_true, Bool.not_false, if_true, if_false,
        Bool.false_eq_true, Bool.true_eq_false, if_true, if_false]

/-- C10: ResumeGuard.can_resume settles every RunState in one of its explicit
branches (terminal, FAILED, BLOCKED, in-progress); the final fallback that
reports an unknown run state is unreachable, so the reason returned is never
of that form. -/
theorem can_resume_never_unknown (ctx : RunContext) :
    (((ResumeGuard.can_resume ctx).2.map ResumeReason.is_unknown_state).getD false) = false := by
  cases h : ctx.run_state <;>
    simp [ResumeGuard.can_resume, ResumeGuard.TERMINAL_STATES, h,
      ResumeReason.is_unknown_state] <;>
    split <;> simp [ResumeReason.is_unknown_state]

/-! Temporal log-before-memory predicates over execution traces (claim C4). -/

/-- Does an event describe a run-state change to the given state. -/
def describesRunState (e : Event) (v : RunState) : Bool :=
  e.event_type == EventType.run_state_changed && e.new_state == some v.value

/-- step.started event for the given step. -/
def isStartedFor (e : Event) (id : String) : Bool :=
  e.event_type == EventType.step_started && e.step_id == some id

/-- step.succeeded event for the given step. -/
def isSucceededFor (e : Event) (id : String) : Bool :=
  e.event_type == EventType.step_succeeded && e.step_id == some id

/-- step.failed event for the given step. -/
def isFailedFor (e : Event) (id : String) : Bool :=
  e.event_type == EventType.step_failed && e.step_id == some id

/-- gate.failed event for the given step. -/
def isGateFailedFor (e : Event) (id : String) : Bool :=
  e.event_type == EventType.gate_failed && e.step_id == some id

/-- step.retried event for the given step carrying the given attempt. -/
def isRetriedFor (e : Event) (id : String) (v : Nat) : Bool :=
  e.event_type == EventType.step_retried && e.step_id == some id && e.attempt == v

/-- Does the prefix already hold an appended event satisfying p. -/
def logged (pre : List TraceAction) (p : Event → Bool) : Bool :=
  pre.any (fun a => match a with | .append e => p e | _ => false)

/-- The claim's per-mutation condition: every in-memory mutation belonging to
one of the five logged operations (run-state transition, step start, step
success, step failure, step retry) must already have its describing event in
the log prefix.  A skip (step state to SKIPPED) is not one of those
operations and is unconstrained. -/
def action_ok_stated (pre : List TraceAction) : TraceAction → Bool
  | .append _ => true
  | .set_run_state v => logged pre (fun e => describesRunState e v)
  | .set_step_state id v =>
    match v with
    | .running => logged pre (fun e => isStartedFor e id)
    | .succeeded => logged pre (fun e => isSucceededFor e id)
    | .failed => logged pre (fun e => isFailedFor e id)
    | _ => true
  | .set_step_attempt id v => logged pre (fun e => isRetriedFor e id v)
  | .add_completed id => logged pre (fun e => isSucceededFor e id)
  | .add_failed_hard_gate id => logged pre (fun e => isGateFailedFor e id)

/-- The amended per-mutation condition: as stated, except for the retry
operation, where the source increments the attempt counter first and then
appends the step.retried event carrying it: the attempt mutation is free and
each step.retried append must be preceded by the matching counter mutation. -/
def action_ok_amended (pre : List TraceAction) : TraceAction → Bool
  | .append e =>
    if e.event_type == EventType.step_retried then
      match e.step_id with
      | some id => pre.contains (TraceAction.set_step_attempt id e.attempt)
      | none => false
    else true
  | .set_run_state v => logged pre (fun e => describesRunState e v)
  | .set_step_state id v =>
    match v with
    | .running => logged pre (fun e => isStartedFor e id)
    | .succeeded => logged pre (fun e => isSucceededFor e id)
    | .failed => logged pre (fun e => isFailedFor e id)
    | _ => true
  | .set_step_attempt _ _ => true
  | .add_completed id => logged pre (fun e => isSucceededFor e id)
  | .add_failed_hard_gate id => logged pre (fun e => isGateFailedFor e id)

/-- Check every action of a trace against its prefix. -/
def trace_ok_from (ok : List TraceAction → TraceAction → Bool) :
    List TraceAction → List TraceAction → Bool
  | _, [] => true
  | pre, a :: rest => ok pre a && trace_ok_from ok (pre ++ [a]) rest

/-- Claim C4 as stated: in this trace, every logged-operation mutation comes
after the event describing it. -/
def log_before_update (tr : List TraceAction) : Bool :=
  trace_ok_from action_ok_stated [] tr

/-- Claim C4 as amended for the retry counter ordering. -/
def log_before_update_amended (tr : List TraceAction) : Bool :=
  trace_ok_from action_ok_amended [] tr

/-! Concrete scenarios used by the settled claims. -/

/-- Scenario S4: one non-hard step, max_retries 2, retrying TRANSIENT_IO. -/
def s4_dag : PipelineDAG :=
  { steps := [{ step_id := "flaky_step", name := "Flaky step", max_retries := 2 }] }

/-- Scenario S4 callable: always fails with TRANSIENT_IO. -/
def s4_sf : StepFunctions :=
  fun id =>
    if id = "flaky_step" then
      some (fun _ _ => (false, some ErrorClass.transient_io, some "Persistent failure"))
    else none

/-- C6: executing the S4 scenario appends exactly three step.started events
carrying attempts 0, 1, 2, exactly two step.retried events, the last
step-level event is a step.failed (at attempt 2), and the run still completes
SUCCEEDED with a final run.completed event carrying succeeded. -/
theorem retry_exhaustion_run_succeeds :
    (executePipeline s4_dag s4_sf "run_s4" none).toOption.map (fun s =>
      ((s.log.filter (fun e => e.event_type == EventType.step_started)).map
          (fun e => e.attempt),
       (s.log.filter (fun e => e.event_type == EventType.step_retried)).length,
       ((s.log.filter (fun e => e.step_id == some "flaky_step")).getLast?).map
          (fun e => (e.event_type, e.attempt)),
       s.ctx.run_state,
       s.log.getLast?.map (fun e => (e.event_type, e.new_state)))) =
    some ([0, 1, 2], 2, some (EventType.step_failed, 2), RunState.succeeded,
      some (EventType.run_completed, some "succeeded")) := by
  rfl


/-- Claim C2 scenario: a hard gate with max_retries 2 and TRANSIENT_IO among
its retry classes (the default). -/
def c2_dag : PipelineDAG :=
  { steps := [{ step_id := "phase_gate", name := "Phase gate",
                is_hard_gate := true, max_retries := 2 }] }

/-- Claim C2 callable: fails with TRANSIENT_IO (so at attempt 0, below
max_retries, with the class retry-eligible by policy). -/
def c2_sf : StepFunctions :=
  fun id =>
    if id = "phase_gate" then
      some (fun _ _ => (false, some ErrorClass.transient_io, some "Network timeout"))
    else none

/-- C2 counterexample: on a hard gate whose callable fails with TRANSIENT_IO
at attempt 0 with max_retries 2, the step executor emits no step.retried and
never re-executes the step (one step.started only); it emits gate.failed and
treats the failure as terminal, failing the run — not only HARD_GATE_FAILED
is terminal on a hard gate. -/
theorem hard_gate_transient_not_retried :
    (executePipeline c2_dag c2_sf "run_c2" none).toOption.map (fun s =>
      ((s.log.filter (fun e => e.event_type == EventType.step_retried)).length,
       s.log.any (fun e => e.event_type == EventType.gate_failed),
       (s.log.filter (fun e => e.event_type == EventType.step_started)).length,
       s.ctx.run_state, s.ctx.failed_hard_gates)) =
    some (0, true, 1, RunState.failed, ["phase_gate"]) := by
  rfl

/-- Claim C3 counterexample log: the exact prefix the executor writes when the
first hard gate of PIPELINE_STEPS fails and the process dies before _fail_run
appends the run.state_changed, so reconstruction yields run state EXECUTING
with a non-empty failed_hard_gates set. -/
def c3_events : List Event :=
  [run_created "run_c3" none,
   run_state_changed "run_c3" RunState.created RunState.preflight_validated
     (some "Pre-execution validation passed"),
   run_state_changed "run_c3" RunState.preflight_validated RunState.executing none,
   step_started "run_c3" "preflight_contract_check" 0,
   step_failed "run_c3" "preflight_contract_check" ErrorClass.hard_gate_failed
     "threshold" 0,
   gate_failed "run_c3" "preflight_contract_check" ErrorClass.hard_gate_failed
     "threshold"]

/-- C3 counterexample: resume_run accepts (returns, does not raise on) a
reconstructed context whose failed_hard_gates set is non-empty, because its
run state is EXECUTING and the guard only consults the gate set in the FAILED
branch. -/
theorem resume_accepts_executing_with_failed_gate :
    (resume_run c3_events).toOption.map
      (fun ctx => (ctx.run_state, ctx.failed_hard_gates)) =
    some (RunState.executing, ["preflight_contract_check"]) := by
  rfl

/-- Claim C4 scenario: one retrying step, so the trace contains a retry
operation. -/
def c4_dag : PipelineDAG :=
  { steps := [{ step_id := "flaky", name := "Flaky", max_retries := 1 }] }

/-- Claim C4 callable: always fails with TRANSIENT_IO. -/
def c4_sf : StepFunctions :=
  fun id =>
    if id = "flaky" then
      some (fun _ _ => (false, some ErrorClass.transient_io, some "Timeout"))
    else none

/-- C4 counterexample: in the trace of a run that retries once, the claimed
event-before-update ordering fails — the step_attempts increment is written
before the step.retried event describing it is appended. -/
theorem retry_updates_memory_before_log :
    (executePipeline c4_dag c4_sf "run_c4" none).toOption.map
      (fun s => log_before_update s.trace) = some false := by
  rfl

/-- Claim C7 scenario: a failing hard gate with one downstream step. -/
def c7_dag : PipelineDAG :=
  { steps := [{ step_id := "gate_a", name := "Gate A", is_hard_gate := true },
              { step_id := "step_b", name := "Step B" }] }

/-- Claim C7 callables: the gate fails with HARD_GATE_FAILED, the downstream
step would succeed (but is never reached). -/
def c7_sf : StepFunctions :=
  fun id =>
    if id = "gate_a" then
      some (fun _ _ => (false, some ErrorClass.hard_gate_failed, some "threshold"))
    else if id = "step_b" then some (fun _ _ => (true, none, none))
    else none

/-- C7 counterexample: after the hard gate fails, step_b is SKIPPED in the
in-memory context, yet the summary generated from the finalized log has no
entry for step_b (skipping writes no event) and counts zero skipped steps. -/
theorem summary_misses_skipped_steps :
    (executePipeline c7_dag c7_sf "run_c7" none).toOption.map (fun s =>
      (s.ctx.step_states "step_b",
       (SummaryGenerator.generate s.log).toOption.map
         (fun m => (m.steps.map (fun st => st.step_id), m.skipped_steps)))) =
    some (StepState.skipped, some (["gate_a"], 0)) := by
  rfl

/-- Claim C9 scenario: the C7 pipeline, but with no callable registered for
the hard gate (only the downstream step has one). -/
def c9_sf : StepFunctions :=
  fun id =>
    if id = "step_b" then some (fun _ _ => (true, none, none)) else none

/-- C9 counterexample: with no callable registered for the hard gate, the run
does not stay on the success path: execute still takes the hard-gate branch
(it tests is_hard_gate, not the gate set), skips the downstream step and ends
FAILED — even though no gate.failed event was emitted, failed_hard_gates
stays empty, and the only step.failed carries error class UNKNOWN. -/
theorem missing_callable_hard_gate_fails_run :
    (executePipeline c7_dag c9_sf "run_c9" none).toOption.map (fun s =>
      (s.ctx.run_state,
       s.log.any (fun e => e.event_type == EventType.gate_failed),
       s.ctx.failed_hard_gates,
       s.ctx.step_states "step_b",
       (s.log.filter (fun e => e.event_type == EventType.step_failed)).map
         (fun e => e.error_class))) =
    some (RunState.failed, false, [], StepState.skipped, [some ErrorClass.unknown]) := by
  rfl

/-- C3 amended: resume_run accepts a reconstructed context exactly when its
run state is CREATED, PREFLIGHT_VALIDATED, EXECUTING or BLOCKED (regardless of
failed hard gates), or FAILED with an empty failed_hard_gates set; it raises
for the terminal states SUCCEEDED and ROLLED_BACK and for FAILED with a
non-empty gate set.  The gate set is only consulted in the FAILED branch. -/
theorem resume_run_guard_characterization (events : List Event) (ctx : RunContext)
    (hrec : reconstruct events = Except.ok ctx) :
    resume_run events = Except.ok ctx ↔
      (ctx.run_state = RunState.created ∨ ctx.run_state = RunState.preflight_validated ∨
       ctx.run_state = RunState.executing ∨ ctx.run_state = RunState.blocked ∨
       (ctx.run_state = RunState.failed ∧ ctx.failed_hard_gates = [])) := by
  have hrw : resume_run events =
      (ResumeGuard.validate_resume ctx).bind (fun _ => Except.ok ctx) := by
    simp only [resume_run, hrec, bind, Except.bind]
  rw [hrw]
  cases h : ctx.run_state
  case failed =>
    by_cases hg : ctx.failed_hard_gates = [] <;>
      simp [ResumeGuard.validate_resume, ResumeGuard.can_resume,
        ResumeGuard.TERMINAL_STATES, h, hg, Except.bind]
  all_goals
    simp [ResumeGuard.validate_resume, ResumeGuard.can_resume,
      ResumeGuard.TERMINAL_STATES, h, Except.bind]

/-- The context reconstructed from the C3 log (fallback branch is never taken). -/
def c3_reconstructed : RunContext :=
  match reconstruct c3_events with
  | .ok c => c
  | .error _ =>
    { run_id := "", run_state := RunState.created,
      step_states := fun _ => StepState.pending, step_attempts := fun _ => 0,
      completed_steps := [], failed_hard_gates := [] }

/-- Witness for the C3 amended theorem at the concrete crash-truncated log. -/
theorem resume_run_guard_characterization_witness :
    reconstruct c3_events = Except.ok c3_reconstructed ∧
    (resume_run c3_events = Except.ok c3_reconstructed ↔
      (c3_reconstructed.run_state = RunState.created ∨
       c3_reconstructed.run_state = RunState.preflight_validated ∨
       c3_reconstructed.run_state = RunState.executing ∨
       c3_reconstructed.run_state = RunState.blocked ∨
       (c3_reconstructed.run_state = RunState.failed ∧
        c3_reconstructed.failed_hard_gates = []))) :=
  ⟨rfl, resume_run_guard_characterization c3_events c3_reconstructed rfl⟩

/-- Membership in insertSorted. -/
theorem mem_insertSorted (x y : String) (l : List String) :
    y ∈ insertSorted x l ↔ y = x ∨ y ∈ l := by
  induction l with
  | nil => simp [insertSorted]
  | cons z rest ihl =>
    by_cases h : x ≤ z
    · simp [insertSorted, h]
    · simp [insertSorted, h, ihl]
      tauto

/-- Membership is preserved by sortStrings. -/
theorem mem_sortStrings (y : String) (l : List String) :
    y ∈ sortStrings l ↔ y ∈ l := by
  induction l with
  | nil => simp [sortStrings]
  | cons z rest ihl =>
    simp only [sortStrings, List.foldr] at ihl ⊢
    rw [mem_insertSorted]
    simp [ihl]

/-- A successful lookup names a member of the association list. -/
theorem lookup_mem {α : Type} (l : List (String × α)) (k : String) (v : α)
    (h : l.lookup k = some v) : (k, v) ∈ l := by
  induction l with
  | nil => cases h
  | cons p rest ihl =>
    rcases p with ⟨pk, pv⟩
    by_cases hk : k == pk
    · have hek : k = pk := eq_of_beq hk
      simp only [List.lookup, hk] at h
      cases h
      rw [hek]
      exact List.Mem.head _
    · simp only [List.lookup, hk] at h
      right
      exact ihl h

/-- Every member of a dict after assignment is an old member or the new pair. -/
theorem dictSet_mem {α : Type} (l : List (String × α)) (k : String) (v : α)
    (p : String × α) (hp : p ∈ dictSet l k v) : p ∈ l ∨ p = (k, v) := by
  simp only [dictSet] at hp
  split at hp
  · rcases List.mem_map.mp hp with ⟨q, hq, hqe⟩
    by_cases hqk : q.1 == k
    · simp only [hqk, if_pos] at hqe
      right
      exact hqe.symm
    · simp only [hqk, Bool.false_eq_true, if_false] at hqe
      left
      rw [← hqe]
      exact hq
  · rcases List.mem_append.mp hp with hin | hnew
    · left
      exact hin
    · right
      simpa using hnew

/-- Replaying one event only ever adds step_states entries carrying RUNNING,
SUCCEEDED or FAILED, keyed by the step_id of a step outcome event. -/
theorem summaryApplyEvent_states (acc acc1 : SummaryAcc) (e : Event)
    (happ : summaryApplyEvent acc e = Except.ok acc1) :
    ∀ p ∈ acc1.step_states,
      p ∈ acc.step_states ∨
      (p.2 ≠ StepState.skipped ∧ e.step_id = some p.1 ∧
        (e.event_type = EventType.step_started ∨
         e.event_type = EventType.step_succeeded ∨
         e.event_type = EventType.step_failed)) := by
  intro p hp
  cases he : e.event_type <;> simp only [summaryApplyEvent, he] at happ
  case step_started | step_succeeded | step_failed =>
    cases hsid : e.step_id with
    | none => rw [hsid] at happ; cases happ
    | some sid =>
      rw [hsid] at happ
      cases happ
      simp only at hp
      rcases dictSet_mem _ _ _ _ hp with hold | hnew
      · left; exact hold
      · right
        rw [hnew]
        simp [hsid, he]
  case run_state_changed | run_completed =>
    cases hns : e.new_state with
    | none => simp only [hns] at happ; cases happ
    | some ns =>
      simp only [hns] at happ
      cases hrs : RunState.fromString ns with
      | none => simp only [hrs] at happ; cases happ
      | some st =>
        simp only [hrs] at happ
        cases happ
        left; exact hp
  case gate_failed =>
    cases hsid : e.step_id with
    | none => rw [hsid] at happ; cases happ
    | some sid =>
      rw [hsid] at happ
      cases happ
      left; exact hp
  all_goals (cases happ; left; exact hp)

/-- Fold form of the previous lemma over a whole event list. -/
theorem summary_fold_states (evs : List Event) :
    ∀ (acc acc' : SummaryAcc), evs.foldlM summaryApplyEvent acc = Except.ok acc' →
    ∀ p ∈ acc'.step_states,
      p ∈ acc.step_states ∨
      (p.2 ≠ StepState.skipped ∧ ∃ e ∈ evs, e.step_id = some p.1 ∧
        (e.event_type = EventType.step_started ∨
         e.event_type = EventType.step_succeeded ∨
         e.event_type = EventType.step_failed)) := by
  induction evs with
  | nil =>
    intro acc acc' h p hp
    simp only [List.foldlM_nil] at h
    cases h
    left; exact hp
  | cons e evs ihl =>
    intro acc acc' h p hp
    simp only [List.foldlM_cons] at h
    cases happ : summaryApplyEvent acc e with
    | error m => rw [happ] at h; cases h
    | ok acc1 =>
      rw [happ] at h
      simp only [bind, Except.bind] at h
      rcases ihl acc1 acc' h p hp with h1 | ⟨hns, e', he', hrest⟩
      · rcases summaryApplyEvent_states acc acc1 e happ p h1 with h0 | ⟨hns, hsid, hty⟩
        · left; exact h0
        · right
          exact ⟨hns, e, List.mem_cons_self e evs, hsid, hty⟩
      · right
        exact ⟨hns, e', List.mem_cons_of_mem e he', hrest⟩

/-- C2 amended: rule R3 holds of the retry policy function — TRANSIENT_IO on a
hard gate below max_retries is retry-eligible, only the HARD_GATE_FAILED class
is blocked there — but StepExecutor.execute_step never consults the policy for
a hard gate: whatever the error class, a failing hard gate takes the terminal
branch, appending exactly step.started, step.failed and gate.failed (never
step.retried), recording the gate, marking the step FAILED and returning
failure without re-executing. -/
theorem hard_gate_policy_allows_but_executor_never_retries :
    (∀ (step : StepDefinition) (a : Nat),
       step.is_hard_gate = true → a < step.max_retries →
       step.retry_classes.contains ErrorClass.transient_io = true →
       RetryPolicy.allows_retry step ErrorClass.transient_io a = true) ∧
    (∀ (sf : StepFunctions) (s : ExecState) (step : StepDefinition)
       (f : StepFunction) (ec : Option ErrorClass) (msg : Option String),
       sf step.step_id = some f → step.is_hard_gate = true →
       f (setStepState (appendEvent s (step_started s.ctx.run_id step.step_id
            (s.ctx.step_attempts step.step_id))) step.step_id StepState.running).ctx
          step.step_id = (false, ec, msg) →
       executeStep sf s step =
         (false,
          setStepState
            (addFailedHardGate
              (appendEvent
                (appendEvent
                  (setStepState
                    (appendEvent s (step_started s.ctx.run_id step.step_id
                      (s.ctx.step_attempts step.step_id)))
                    step.step_id StepState.running)
                  (step_failed s.ctx.run_id step.step_id (ec.getD ErrorClass.unknown)
                    (msg.getD "Step failed") (s.ctx.step_attempts step.step_id)))
                (gate_failed s.ctx.run_id step.step_id (ec.getD ErrorClass.unknown)
                  (msg.getD "Step failed")))
              step.step_id)
            step.step_id StepState.failed)) := by
  constructor
  · intro step a hh hlt hcl
    simp only [RetryPolicy.allows_retry, StepDefinition.allows_retry, hh]
    simp only [Bool.true_and]
    have : (ErrorClass.transient_io == ErrorClass.hard_gate_failed) = false := by decide
    rw [this]
    simp only [Bool.false_eq_true, if_false]
    have hnle : ¬ step.max_retries ≤ a := by omega
    simp only [hnle, if_false]
    exact hcl
  · intro sf s step f ec msg hf hh hr
    show executeStepOnce sf step (executeStepGo sf step step.max_retries) s = _
    simp only [executeStepOnce, hf, hr, hh, if_true]
    rfl

/-- initialize_steps leaves every field except the two step dicts unchanged. -/
theorem initialize_steps_fields (ids : List String) :
    ∀ ctx : RunContext,
      (ctx.initialize_steps ids).run_state = ctx.run_state ∧
      (ctx.initialize_steps ids).run_id = ctx.run_id ∧
      (ctx.initialize_steps ids).completed_steps = ctx.completed_steps ∧
      (ctx.initialize_steps ids).failed_hard_gates = ctx.failed_hard_gates := by
  induction ids with
  | nil => intro ctx; exact ⟨rfl, rfl, rfl, rfl⟩
  | cons id rest ihl =>
    intro ctx
    simpa [RunContext.initialize_steps] using
      ihl { ctx with step_states := setKey ctx.step_states id StepState.pending,
                     step_attempts := setKey ctx.step_attempts id 0 }

/-- initialize_steps keeps an all-PENDING state dict all PENDING. -/
theorem initialize_steps_states_pending (ids : List String) :
    ∀ ctx : RunContext, (∀ x, ctx.step_states x = StepState.pending) →
      ∀ x, (ctx.initialize_steps ids).step_states x = StepState.pending := by
  induction ids with
  | nil => intro ctx h x; exact h x
  | cons id rest ihl =>
    intro ctx h x
    simp only [RunContext.initialize_steps, List.foldl]
    apply ihl
    intro y
    simp only [setKey]
    split
    · rfl
    · exact h y

/-- initialize_steps keeps an all-zero attempts dict all zero. -/
theorem initialize_steps_attempts_zero (ids : List String) :
    ∀ ctx : RunContext, (∀ x, ctx.step_attempts x = 0) →
      ∀ x, (ctx.initialize_steps ids).step_attempts x = 0 := by
  induction ids with
  | nil => intro ctx h x; exact h x
  | cons id rest ihl =>
    intro ctx h x
    simp only [RunContext.initialize_steps, List.foldl]
    apply ihl
    intro y
    simp only [setKey]
    split
    · rfl
    · exact h y

/-- The fields of the fresh context returned by start. -/
theorem start_fields (dag : PipelineDAG) (rid : String) (reason : Option String) :
    (start dag rid reason).ctx.run_state = RunState.created ∧
    (start dag rid reason).ctx.run_id = rid ∧
    (start dag rid reason).ctx.completed_steps = [] ∧
    (start dag rid reason).ctx.failed_hard_gates = [] ∧
    (∀ x, (start dag rid reason).ctx.step_states x = StepState.pending) ∧
    (∀ x, (start dag rid reason).ctx.step_attempts x = 0) ∧
    (start dag rid reason).trace = [TraceAction.append (run_created rid reason)] := by
  have hf := initialize_steps_fields dag.order
    { run_id := rid, run_state := RunState.created,
      step_states := fun _ => StepState.pending, step_attempts := fun _ => 0,
      completed_steps := [], failed_hard_gates := [] }
  refine ⟨hf.1, hf.2.1, hf.2.2.1, hf.2.2.2, ?_, ?_, rfl⟩
  · intro x
    exact initialize_steps_states_pending dag.order _ (fun _ => rfl) x
  · intro x
    exact initialize_steps_attempts_zero dag.order _ (fun _ => rfl) x

/-- The downstream-skip loop leaves everything but step_states (and the
trace's update actions) unchanged. -/
theorem skipPending_fields (ds : List String) :
    ∀ s : ExecState,
      (skipPendingDownstream s ds).log = s.log ∧
      (skipPendingDownstream s ds).ctx.run_state = s.ctx.run_state ∧
      (skipPendingDownstream s ds).ctx.run_id = s.ctx.run_id ∧
      (skipPendingDownstream s ds).ctx.completed_steps = s.ctx.completed_steps ∧
      (skipPendingDownstream s ds).ctx.failed_hard_gates = s.ctx.failed_hard_gates ∧
      (∀ x, (skipPendingDownstream s ds).ctx.step_attempts x = s.ctx.step_attempts x) := by
  induction ds with
  | nil => intro s; exact ⟨rfl, rfl, rfl, rfl, rfl, fun _ => rfl⟩
  | cons d rest ihl =>
    intro s
    simp only [skipPendingDownstream, List.foldl]
    by_cases hd : s.ctx.step_states d = StepState.pending
    · simp only [hd, if_true]
      have := ihl (setStepState s d StepState.skipped)
      simpa [setStepState, ExecState.log, skipPendingDownstream] using this
    · simp only [hd, if_false]
      simpa [skipPendingDownstream] using ihl s

/-- Step-state lookups after setStepState. -/
theorem setStepState_states_same (s : ExecState) (k : String) (v : StepState) :
    (setStepState s k v).ctx.step_states k = v :=
  setKey_same _ _ _

/-- Step-state lookups of other keys after setStepState. -/
theorem setStepState_states_other (s : ExecState) (k x : String) (v : StepState)
    (h : x ≠ k) : (setStepState s k v).ctx.step_states x = s.ctx.step_states x :=
  setKey_other _ _ _ _ h

/-- The downstream-skip loop turns exactly the PENDING steps of its list to
SKIPPED and leaves every other step state alone. -/
theorem skipPending_states (ds : List String) :
    ∀ (s : ExecState) (x : String),
      (skipPendingDownstream s ds).ctx.step_states x =
        if x ∈ ds ∧ s.ctx.step_states x = StepState.pending then StepState.skipped
        else s.ctx.step_states x := by
  induction ds with
  | nil =>
    intro s x
    simp [skipPendingDownstream]
  | cons d rest ihl =>
    intro s x
    simp only [skipPendingDownstream, List.foldl_cons]
    by_cases hd : s.ctx.step_states d = StepState.pending
    · rw [if_pos hd]
      have hrw := ihl (setStepState s d StepState.skipped) x
      simp only [skipPendingDownstream] at hrw
      rw [hrw]
      by_cases hxd : x = d
      · subst hxd
        rw [setStepState_states_same]
        simp [hd, List.mem_cons]
      · rw [setStepState_states_other s d x _ hxd]
        simp [List.mem_cons, hxd]
    · rw [if_neg hd]
      have hrw := ihl s x
      simp only [skipPendingDownstream] at hrw
      rw [hrw]
      by_cases hxd : x = d
      · subst hxd
        simp [hd]
      · simp [List.mem_cons, hxd]

/-- The state right after execute's two opening run-state transitions. -/
def loopEntry (dag : PipelineDAG) (rid : String) (reason : Option String) : ExecState :=
  setRunState
    (appendEvent
      (setRunState
        (appendEvent (start dag rid reason)
          (run_state_changed rid RunState.created RunState.preflight_validated
            (some "Pre-execution validation passed")))
        RunState.preflight_validated)
      (run_state_changed rid RunState.preflight_validated RunState.executing none))
    RunState.executing

/-- A fresh execute reduces to the step loop started from loopEntry: the two
opening transitions always validate (CREATED to PREFLIGHT_VALIDATED to
EXECUTING are rows of the table). -/
theorem executePipeline_eq_loop (dag : PipelineDAG) (sf : StepFunctions)
    (rid : String) (reason : Option String) :
    executePipeline dag sf rid reason =
      executeSteps dag sf dag.order (loopEntry dag rid reason) := by
  obtain ⟨h1, h2, _, _, _, _, _⟩ := start_fields dag rid reason
  simp only [executePipeline, execute, transition_run_state, loopEntry,
    setRunState, appendEvent, h1, h2]
  simp [RunStateMachine.can_transition, RunStateMachine.TRANSITIONS, bind, Except.bind]

/-- The observable fields of loopEntry. -/
theorem loopEntry_fields (dag : PipelineDAG) (rid : String) (reason : Option String) :
    (loopEntry dag rid reason).ctx.run_state = RunState.executing ∧
    (loopEntry dag rid reason).ctx.run_id = rid ∧
    (loopEntry dag rid reason).ctx.completed_steps = [] ∧
    (loopEntry dag rid reason).ctx.failed_hard_gates = [] ∧
    (∀ x, (loopEntry dag rid reason).ctx.step_states x = StepState.pending) ∧
    (∀ x, (loopEntry dag rid reason).ctx.step_attempts x = 0) ∧
    (loopEntry dag rid reason).log =
      [run_created rid reason,
       run_state_changed rid RunState.created RunState.preflight_validated
         (some "Pre-execution validation passed"),
       run_state_changed rid RunState.preflight_validated RunState.executing none] := by
  obtain ⟨h1, h2, h3, h4, h5, h6, h7⟩ := start_fields dag rid reason
  refine ⟨rfl, ?_, ?_, ?_, ?_, ?_, ?_⟩
  · simpa [loopEntry, setRunState, appendEvent] using h2
  · simpa [loopEntry, setRunState, appendEvent] using h3
  · simpa [loopEntry, setRunState, appendEvent] using h4
  · intro x
    simpa [loopEntry, setRunState, appendEvent] using h5 x
  · intro x
    simpa [loopEntry, setRunState, appendEvent] using h6 x
  · simp [loopEntry, setRunState, appendEvent, ExecState.log, h7]

/-- emit_and_fail appends exactly one step.failed event and marks the step
FAILED, leaving every other context field alone. -/
theorem emit_and_fail_fields (s : ExecState) (step : StepDefinition)
    (ecl : ErrorClass) (r : String) :
    (emit_and_fail s step ecl r).log =
      s.log ++ [step_failed s.ctx.run_id step.step_id ecl r
        (s.ctx.step_attempts step.step_id)] ∧
    (emit_and_fail s step ecl r).ctx.run_state = s.ctx.run_state ∧
    (emit_and_fail s step ecl r).ctx.run_id = s.ctx.run_id ∧
    (emit_and_fail s step ecl r).ctx.completed_steps = s.ctx.completed_steps ∧
    (emit_and_fail s step ecl r).ctx.failed_hard_gates = s.ctx.failed_hard_gates ∧
    (∀ x, (emit_and_fail s step ecl r).ctx.step_attempts x = s.ctx.step_attempts x) := by
  refine ⟨?_, rfl, rfl, rfl, rfl, fun _ => rfl⟩
  simp [emit_and_fail, appendEvent, setStepState, ExecState.log]

/-- fail_run from EXECUTING: transition to FAILED (appending the
run.state_changed) then append run.completed with FAILED. -/
theorem fail_run_executing (s : ExecState) (reason : String)
    (h : s.ctx.run_state = RunState.executing) :
    fail_run s reason = Except.ok (appendEvent (setRunState (appendEvent s
      (run_state_changed s.ctx.run_id RunState.executing RunState.failed (some reason)))
      RunState.failed) (run_completed s.ctx.run_id RunState.failed (some reason))) := by
  simp [fail_run, transition_run_state, h, RunStateMachine.can_transition,
    RunStateMachine.TRANSITIONS, bind, Except.bind, setRunState, appendEvent]

/-- complete_run to SUCCEEDED from EXECUTING: transition (appending the
run.state_changed) then append run.completed with SUCCEEDED. -/
theorem complete_run_executing (s : ExecState) (reason : String)
    (h : s.ctx.run_state = RunState.executing) :
    complete_run s RunState.succeeded reason =
      Except.ok (appendEvent (setRunState (appendEvent s
        (run_state_changed s.ctx.run_id RunState.executing RunState.succeeded
          (some reason)))
        RunState.succeeded)
        (run_completed s.ctx.run_id RunState.succeeded (some reason))) := by
  simp [complete_run, transition_run_state, h, RunStateMachine.can_transition,
    RunStateMachine.TRANSITIONS, bind, Except.bind, setRunState, appendEvent]

/-- What one step execution does to the surrounding state: the run state and
run id are untouched, other steps' states and attempt counters are untouched,
the log grows by events of this step only, and unless the step is a failing
hard gate nothing gate-related happens (no gate.failed event, failed gate set
untouched). -/
def StepSpec (step : StepDefinition) (s : ExecState) (r : Bool × ExecState) : Prop :=
  r.2.ctx.run_state = s.ctx.run_state ∧
  r.2.ctx.run_id = s.ctx.run_id ∧
  (∀ x, x ≠ step.step_id → r.2.ctx.step_states x = s.ctx.step_states x ∧
    r.2.ctx.step_attempts x = s.ctx.step_attempts x) ∧
  (∃ delta, r.2.log = s.log ++ delta ∧
    (∀ e ∈ delta, e.step_id = some step.step_id) ∧
    ((r.1 = true ∨ step.is_hard_gate = false) →
      ∀ e ∈ delta, e.event_type ≠ EventType.gate_failed)) ∧
  ((r.1 = true ∨ step.is_hard_gate = false) →
    r.2.ctx.failed_hard_gates = s.ctx.failed_hard_gates)

/-- StepSpec composes with a gate-neutral prefix of effects on this step. -/
theorem StepSpec_extend (step : StepDefinition) (s s5 : ExecState)
    (r : Bool × ExecState) (h5 : StepSpec step s5 r)
    (hrun : s5.ctx.run_state = s.ctx.run_state)
    (hrid : s5.ctx.run_id = s.ctx.run_id)
    (hframe : ∀ x, x ≠ step.step_id → s5.ctx.step_states x = s.ctx.step_states x ∧
      s5.ctx.step_attempts x = s.ctx.step_attempts x)
    (hlog : ∃ d0, s5.log = s.log ++ d0 ∧ (∀ e ∈ d0, e.step_id = some step.step_id) ∧
      (∀ e ∈ d0, e.event_type ≠ EventType.gate_failed))
    (hgates : s5.ctx.failed_hard_gates = s.ctx.failed_hard_gates) :
    StepSpec step s r := by
  obtain ⟨hq1, hq2, hq3, ⟨delta, hd1, hd2, hd3⟩, hq5⟩ := h5
  obtain ⟨d0, hl1, hl2, hl3⟩ := hlog
  refine ⟨hq1.trans hrun, hq2.trans hrid, ?_, ⟨d0 ++ delta, ?_, ?_, ?_⟩, ?_⟩
  · intro x hx
    have h1 := hq3 x hx
    have h2 := hframe x hx
    exact ⟨h1.1.trans h2.1, h1.2.trans h2.2⟩
  · rw [hd1, hl1, List.append_assoc]
  · intro e he
    rcases List.mem_append.mp he with h | h
    · exact hl2 e h
    · exact hd2 e h
  · intro hg e he
    rcases List.mem_append.mp he with h | h
    · exact hl3 e h
    · exact hd3 hg e h
  · intro hg
    rw [hq5 hg, hgates]

/-- One pass satisfies StepSpec whenever the retry continuation does. -/
theorem executeStepOnce_stepSpec (sf : StepFunctions) (step : StepDefinition)
    (k : ExecState → Bool × ExecState) (s : ExecState)
    (hk : ∀ s5, StepSpec step s5 (k s5)) :
    StepSpec step s (executeStepOnce sf step k s) := by
  rcases hf : sf step.step_id with _ | f
  · simp only [executeStepOnce, hf]
    refine ⟨rfl, rfl, ?_, ⟨[step_failed s.ctx.run_id step.step_id ErrorClass.unknown
      ("No implementation for step: " ++ step.step_id)
      (s.ctx.step_attempts step.step_id)], ?_, ?_, ?_⟩, fun _ => rfl⟩
    · intro x hx
      exact ⟨setKey_other _ _ _ _ hx, rfl⟩
    · simp [emit_and_fail, appendEvent, setStepState, ExecState.log]
    · simp [step_failed]
    · simp [step_failed]
  · simp only [executeStepOnce, hf]
    rcases hr : f (setStepState (appendEvent s (step_started s.ctx.run_id step.step_id
        (s.ctx.step_attempts step.step_id))) step.step_id StepState.running).ctx
        step.step_id with ⟨ok, ec, msg⟩
    cases ok
    · simp only [hr]
      by_cases hh : step.is_hard_gate
      · simp only [hh, if_true]
        refine ⟨rfl, rfl, ?_, ⟨[step_started s.ctx.run_id step.step_id
            (s.ctx.step_attempts step.step_id),
          step_failed s.ctx.run_id step.step_id (ec.getD ErrorClass.unknown)
            (msg.getD "Step failed") (s.ctx.step_attempts step.step_id),
          gate_failed s.ctx.run_id step.step_id (ec.getD ErrorClass.unknown)
            (msg.getD "Step failed")], ?_, ?_, ?_⟩, ?_⟩
        · intro x hx
          constructor
          · simp only [setStepState, addFailedHardGate, appendEvent]
            simp [setKey, hx]
          · rfl
        · simp [appendEvent, setStepState, addFailedHardGate, ExecState.log]
        · simp [step_started, step_failed, gate_failed]
        · intro hcon
          rcases hcon with hcon | hcon
          · cases hcon
          · rw [hh] at hcon; cases hcon
        · intro hcon
          rcases hcon with hcon | hcon
          · cases hcon
          · rw [hh] at hcon; cases hcon
      · rw [if_neg (by simp [hh])]
        by_cases hretry : RetryPolicy.allows_retry step (ec.getD ErrorClass.unknown)
            (s.ctx.step_attempts step.step_id)
        · simp only [hretry, if_true]
          apply StepSpec_extend step s _ _ (hk _)
          · rfl
          · rfl
          · intro x hx
            constructor
            · simp only [appendEvent, setStepAttempt, setStepState]
              simp [setKey, hx]
            · simp only [appendEvent, setStepAttempt, setStepState]
              simp [setKey, hx]
          · refine ⟨[step_started s.ctx.run_id step.step_id
                (s.ctx.step_attempts step.step_id),
              step_failed s.ctx.run_id step.step_id (ec.getD ErrorClass.unknown)
                (msg.getD "Step failed") (s.ctx.step_attempts step.step_id),
              step_retried s.ctx.run_id step.step_id
                (s.ctx.step_attempts step.step_id + 1)
                ("Retrying after " ++ (ec.getD ErrorClass.unknown).value)], ?_, ?_, ?_⟩
            · simp only [appendEvent, setStepAttempt, setStepState, ExecState.log,
                List.filterMap_append]
              simp [setKey_same]
            · intro e he
              simp only [List.mem_cons, List.not_mem_nil, or_false] at he
              rcases he with h3 | h3 | h3 <;> (rw [h3]; rfl)
            · intro e he
              simp only [List.mem_cons, List.not_mem_nil, or_false] at he
              rcases he with h3 | h3 | h3 <;>
                (rw [h3]; simp [step_started, step_failed, step_retried])
          · rfl
        · simp only [hretry, if_false, Bool.false_eq_true]
          refine ⟨rfl, rfl, ?_, ⟨[step_started s.ctx.run_id step.step_id
              (s.ctx.step_attempts step.step_id),
            step_failed s.ctx.run_id step.step_id (ec.getD ErrorClass.unknown)
              (msg.getD "Step failed") (s.ctx.step_attempts step.step_id)], ?_, ?_, ?_⟩,
            fun _ => rfl⟩
          · intro x hx
            exact ⟨by
              simp only [setStepState, appendEvent]
              simp [setKey, hx], rfl⟩
          · simp [appendEvent, setStepState, ExecState.log]
          · simp [step_started, step_failed]
          · intro _
            simp [step_started, step_failed]
    · simp only [hr]
      refine ⟨rfl, rfl, ?_, ⟨[step_started s.ctx.run_id step.step_id
          (s.ctx.step_attempts step.step_id),
        step_succeeded s.ctx.run_id step.step_id (s.ctx.step_attempts step.step_id)
          none], ?_, ?_, ?_⟩, fun _ => rfl⟩
      · intro x hx
        constructor
        · simp only [setStepState, addCompleted, appendEvent]
          simp [setKey, hx]
        · rfl
      · simp [appendEvent, setStepState, addCompleted, ExecState.log]
      · simp [step_started, step_succeeded]
      · intro _
        simp [step_started, step_succeeded]

/-- Every fueled execution of one step satisfies StepSpec. -/
theorem executeStepGo_stepSpec (sf : StepFunctions) (step : StepDefinition) :
    ∀ (fuel : Nat) (s : ExecState), StepSpec step s (executeStepGo sf step fuel s) := by
  intro fuel
  induction fuel with
  | zero =>
    intro s
    show StepSpec step s (executeStepOnce sf step _ s)
    apply executeStepOnce_stepSpec
    intro s5
    refine ⟨rfl, rfl, ?_, ⟨[], by simp [setStepState, ExecState.log], by simp, by simp⟩,
      fun _ => rfl⟩
    intro x hx
    refine ⟨?_, rfl⟩
    simp only [setStepState]
    simp [setKey, hx]
  | succ fuel ihf =>
    intro s
    exact executeStepOnce_stepSpec sf step _ s ihf

/-- execute_step satisfies StepSpec. -/
theorem executeStep_stepSpec (sf : StepFunctions) (s : ExecState)
    (step : StepDefinition) : StepSpec step s (executeStep sf s step) :=
  executeStepGo_stepSpec sf step _ s

/-- In a duplicate-free list, the element a suffix starts with sits exactly at
the index where the suffix begins. -/
theorem indexOf_of_drop (l : List String) :
    ∀ (k : Nat) (id : String) (rest : List String),
      l.Nodup → l.drop k = id :: rest → l.indexOf? id = some k := by
  induction l with
  | nil =>
    intro k id rest _ hd
    rw [List.drop_nil] at hd
    cases hd
  | cons x xs ihl =>
    intro k id rest hnd hd
    cases k with
    | zero =>
      simp only [List.drop_zero] at hd
      cases hd
      simp [List.indexOf?, List.findIdx?_cons]
    | succ k =>
      rw [List.drop_succ_cons] at hd
      have hxs : xs.indexOf? id = some k :=
        ihl k id rest (List.Nodup.of_cons hnd) hd
      have hmem : id ∈ xs := by
        have : id ∈ xs.drop k := by
          rw [hd]
          exact List.mem_cons_self _ _
        exact List.mem_of_mem_drop this
      have hx : x ≠ id := by
        intro he
        rw [he] at hnd
        exact (List.nodup_cons.mp hnd).1 hmem
      simp only [List.indexOf?, List.findIdx?_cons]
      have hbeq : (x == id) = false := by
        simp [hx]
      rw [hbeq]
      simp only [Bool.false_eq_true, if_false, List.findIdx?_succ]
      simp only [List.indexOf?] at hxs
      rw [hxs]
      rfl

/-- The downstream list of the head of a suffix of a duplicate-free order is
exactly the tail of that suffix. -/
theorem downstream_of_drop (dag : PipelineDAG) (k : Nat) (id : String)
    (rest : List String) (hnd : dag.order.Nodup) (hd : dag.order.drop k = id :: rest) :
    dag.get_downstream_steps id = rest := by
  simp only [PipelineDAG.get_downstream_steps]
  rw [indexOf_of_drop dag.order k id rest hnd hd]
  simp only
  have h1 : dag.order.drop (k + 1) = (dag.order.drop k).drop 1 := by
    rw [List.drop_drop]
  rw [h1, hd]
  rfl

/-- The fail-closed property of claim C1 over a finished execution state: for
any step g with a gate.failed event in the log, every step downstream of g
ends SKIPPED, the run ends FAILED via a run.state_changed followed by a final
run.completed carrying failed, and no step.started for any downstream step is
anywhere in the log. -/
def FailClosed (dag : PipelineDAG) (s' : ExecState) : Prop :=
  ∀ g : String,
    (∃ e ∈ s'.log, e.event_type = EventType.gate_failed ∧ e.step_id = some g) →
    (∀ d ∈ dag.get_downstream_steps g, s'.ctx.step_states d = StepState.skipped) ∧
    s'.ctx.run_state = RunState.failed ∧
    (∃ l e1 e2, s'.log = l ++ [e1, e2] ∧
      e1.event_type = EventType.run_state_changed ∧
      e1.new_state = some RunState.failed.value ∧
      e2.event_type = EventType.run_completed ∧
      e2.new_state = some RunState.failed.value) ∧
    (∀ e ∈ s'.log, e.event_type = EventType.step_started →
      ∀ d ∈ dag.get_downstream_steps g, e.step_id ≠ some d)

/-- Invariant of the execute step loop on a fresh run, before any hard gate
has failed: the run is EXECUTING, no gate has been recorded or logged, the
steps still to process are a suffix of the order, they are all PENDING, and
no logged event mentions them. -/
def LoopInv (dag : PipelineDAG) (rest : List String) (s : ExecState) : Prop :=
  s.ctx.run_state = RunState.executing ∧
  s.ctx.failed_hard_gates = [] ∧
  (∀ e ∈ s.log, e.event_type ≠ EventType.gate_failed) ∧
  (∃ k, dag.order.drop k = rest) ∧
  (∀ id ∈ rest, s.ctx.step_states id = StepState.pending) ∧
  (∀ e ∈ s.log, ∀ id ∈ rest, e.step_id ≠ some id)

/-- The step loop preserves the fail-closed property: started under the loop
invariant, a successful return is fail-closed. -/
theorem executeSteps_failClosed (dag : PipelineDAG) (sf : StepFunctions)
    (hnd : dag.order.Nodup) :
    ∀ (rest : List String) (s s' : ExecState),
      LoopInv dag rest s →
      executeSteps dag sf rest s = Except.ok s' →
      FailClosed dag s' := by
  intro rest
  induction rest with
  | nil =>
    intro s s' hinv hrun
    obtain ⟨h1, h2, h3, _, _, _⟩ := hinv
    simp only [executeSteps, h2, List.isEmpty_nil, if_true] at hrun
    rw [complete_run_executing s _ h1] at hrun
    cases hrun
    intro g ⟨e, he, hety, _⟩
    rw [log_append_event, log_set_run_state, log_append_event] at he
    rcases List.mem_append.mp he with he | he
    · rcases List.mem_append.mp he with he | he
      · exact absurd hety (h3 e he)
      · simp only [List.mem_singleton] at he
        rw [he] at hety
        cases hety
    · simp only [List.mem_singleton] at he
      rw [he] at hety
      cases hety
  | cons id rest' ihl =>
    intro s s' hinv hrun
    obtain ⟨h1, h2, h3, ⟨k, hk⟩, h5, h6⟩ := hinv
    have hsuffix : dag.order.drop (k + 1) = rest' := by
      have : dag.order.drop (k + 1) = (dag.order.drop k).drop 1 := by
        rw [List.drop_drop]
      rw [this, hk]
      rfl
    have hnotin : id ∉ rest' := by
      have hdn : (id :: rest').Nodup := by
        rw [← hk]
        exact hnd.sublist (List.drop_sublist k dag.order)
      exact (List.nodup_cons.mp hdn).1
    simp only [executeSteps] at hrun
    cases hget : dag.get_step id with
    | none =>
      rw [hget] at hrun
      refine ihl s s' ⟨h1, h2, h3, ⟨k + 1, hsuffix⟩, ?_, ?_⟩ hrun
      · intro x hx
        exact h5 x (List.mem_cons_of_mem id hx)
      · intro e he x hx
        exact h6 e he x (List.mem_cons_of_mem id hx)
    | some step =>
      have hstepid : step.step_id = id := by
        have := List.find?_some hget
        exact eq_of_beq this
      rw [hget] at hrun
      cases hcan : (dag.can_execute_step id s.ctx.completed_steps
          s.ctx.failed_hard_gates).1
      · rw [hcan] at hrun
        simp only [Bool.false_eq_true, if_false] at hrun
        refine ihl (setStepState s id StepState.skipped) s'
          ⟨h1, h2, ?_, ⟨k + 1, hsuffix⟩, ?_, ?_⟩ hrun
        · intro e he
          rw [log_set_step_state] at he
          exact h3 e he
        · intro x hx
          rw [setStepState_states_other s id x _ (fun hxe => hnotin (hxe ▸ hx))]
          exact h5 x (List.mem_cons_of_mem id hx)
        · intro e he x hx
          rw [log_set_step_state] at he
          exact h6 e he x (List.mem_cons_of_mem id hx)
      · rw [hcan] at hrun
        simp only [if_true] at hrun
        obtain ⟨hq1, hq2, hq3, ⟨delta, hd1, hd2, hd3⟩, hq5⟩ :=
          executeStep_stepSpec sf s step
        cases hr1 : (executeStep sf s step).1
        · rw [hr1] at hrun
          simp only [Bool.false_eq_true, if_false] at hrun
          cases hhard : step.is_hard_gate
          · rw [hhard] at hrun
            simp only [Bool.false_eq_true, if_false] at hrun
            refine ihl (executeStep sf s step).2 s'
              ⟨?_, ?_, ?_, ⟨k + 1, hsuffix⟩, ?_, ?_⟩ hrun
            · rw [hq1, h1]
            · rw [hq5 (Or.inr hhard), h2]
            · intro e he
              rw [hd1] at he
              rcases List.mem_append.mp he with he | he
              · exact h3 e he
              · exact hd3 (Or.inr hhard) e he
            · intro x hx
              have hxid : x ≠ step.step_id := by
                rw [hstepid]
                intro hxe
                exact hnotin (hxe ▸ hx)
              rw [(hq3 x hxid).1]
              exact h5 x (List.mem_cons_of_mem id hx)
            · intro e he x hx
              rw [hd1] at he
              rcases List.mem_append.mp he with he | he
              · exact h6 e he x (List.mem_cons_of_mem id hx)
              · rw [hd2 e he, hstepid]
                intro hcon
                cases hcon
                exact hnotin hx
          · rw [hhard] at hrun
            simp only [if_true] at hrun
            have hdown : dag.get_downstream_steps id = rest' :=
              downstream_of_drop dag k id rest' hnd hk
            obtain ⟨hs1, hs2, hs3, hs4, hs5, hs6⟩ :=
              skipPending_fields (dag.get_downstream_steps id)
                (executeStep sf s step).2
            have hrs : (skipPendingDownstream (executeStep sf s step).2
                (dag.get_downstream_steps id)).ctx.run_state = RunState.executing := by
              rw [hs2, hq1, h1]
            rw [fail_run_executing _ _ hrs] at hrun
            cases hrun
            set sskip := skipPendingDownstream (executeStep sf s step).2
              (dag.get_downstream_steps id) with hsskip
            intro g ⟨e, he, hety, hesid⟩
            rw [log_append_event, log_set_run_state, log_append_event] at he
            have hgid : g = id := by
              rcases List.mem_append.mp he with he | he
              · rcases List.mem_append.mp he with he | he
                · rw [hs1, hd1] at he
                  rcases List.mem_append.mp he with he | he
                  · exact absurd hety (h3 e he)
                  · have := hd2 e he
                    rw [hstepid] at this
                    rw [this] at hesid
                    cases hesid
                    rfl
                · simp only [List.mem_singleton] at he
                  rw [he] at hety
                  cases hety
              · simp only [List.mem_singleton] at he
                rw [he] at hety
                cases hety
            subst hgid
            refine ⟨?_, rfl, ?_, ?_⟩
            · intro d hd
              rw [hdown] at hd
              show sskip.ctx.step_states d = StepState.skipped
              rw [skipPending_states]
              have hdid : d ≠ step.step_id := by
                rw [hstepid]
                intro hde
                exact hnotin (hde ▸ hd)
              have : (executeStep sf s step).2.ctx.step_states d =
                  StepState.pending := by
                rw [(hq3 d hdid).1]
                exact h5 d (List.mem_cons_of_mem _ hd)
              rw [if_pos ⟨by rw [hdown]; exact hd, this⟩]
            · refine ⟨sskip.log,
                run_state_changed sskip.ctx.run_id RunState.executing RunState.failed
                  (some ("Hard gate failed: " ++ g)),
                run_completed sskip.ctx.run_id RunState.failed
                  (some ("Hard gate failed: " ++ g)), ?_, rfl, rfl, rfl, rfl⟩
              rw [log_append_event, log_set_run_state, log_append_event,
                List.append_assoc]
              rfl
            · intro e2 he2 hety2 d hd
              rw [hdown] at hd
              rw [log_append_event, log_set_run_state, log_append_event] at he2
              rcases List.mem_append.mp he2 with he2 | he2
              · rcases List.mem_append.mp he2 with he2 | he2
                · rw [hs1, hd1] at he2
                  rcases List.mem_append.mp he2 with he2 | he2
                  · exact h6 e2 he2 d (List.mem_cons_of_mem _ hd)
                  · rw [hd2 e2 he2, hstepid]
                    intro hcon
                    cases hcon
                    exact hnotin hd
                · simp only [List.mem_singleton] at he2
                  rw [he2] at hety2
                  cases hety2
              · simp only [List.mem_singleton] at he2
                rw [he2] at hety2
                cases hety2
        · rw [hr1] at hrun
          simp only [if_true] at hrun
          refine ihl (executeStep sf s step).2 s'
            ⟨?_, ?_, ?_, ⟨k + 1, hsuffix⟩, ?_, ?_⟩ hrun
          · rw [hq1, h1]
          · rw [hq5 (Or.inl hr1), h2]
          · intro e he
            rw [hd1] at he
            rcases List.mem_append.mp he with he | he
            · exact h3 e he
            · exact hd3 (Or.inl hr1) e he
          · intro x hx
            have hxid : x ≠ step.step_id := by
              rw [hstepid]
              intro hxe
              exact hnotin (hxe ▸ hx)
            rw [(hq3 x hxid).1]
            exact h5 x (List.mem_cons_of_mem id hx)
          · intro e he x hx
            rw [hd1] at he
            rcases List.mem_append.mp he with he | he
            · exact h6 e he x (List.mem_cons_of_mem id hx)
            · rw [hd2 e he, hstepid]
              intro hcon
              cases hcon
              exact hnotin hx

/-- C1: fail-closed core rule.  For every pipeline with distinct step ids and
every set of step callables, on a fresh run (start then execute) that
returned, if a hard gate failed (a gate.failed event exists for step g), then
every step downstream of g is SKIPPED in the final in-memory context (they
were all PENDING when the gate failed), the run reached FAILED via a
run.state_changed event followed by a final run.completed carrying failed,
and no step.started for any step downstream of g exists anywhere in the log. -/
theorem hard_gate_fail_closed (dag : PipelineDAG) (sf : StepFunctions)
    (rid : String) (reason : Option String) (s' : ExecState)
    (hnd : dag.order.Nodup)
    (hexec : executePipeline dag sf rid reason = Except.ok s') :
    FailClosed dag s' := by
  rw [executePipeline_eq_loop] at hexec
  obtain ⟨hl1, hl2, hl3, hl4, hl5, hl6, hl7⟩ := loopEntry_fields dag rid reason
  refine executeSteps_failClosed dag sf hnd dag.order (loopEntry dag rid reason) s'
    ⟨hl1, hl4, ?_, ⟨0, rfl⟩, fun x _ => hl5 x, ?_⟩ hexec
  · intro e he
    rw [hl7] at he
    simp only [List.mem_cons, List.not_mem_nil, or_false] at he
    rcases he with he | he | he <;> (rw [he]; simp [run_created, run_state_changed])
  · intro e he x _
    rw [hl7] at he
    simp only [List.mem_cons, List.not_mem_nil, or_false] at he
    rcases he with he | he | he <;> (rw [he]; simp [run_created, run_state_changed])

/-- The final state of the C7 scenario run (fallback never taken). -/
def c1_final : ExecState :=
  match executePipeline c7_dag c7_sf "run_c7" none with
  | Except.ok s => s
  | Except.error _ => start c7_dag "run_c7" none

/-- Witness for C1 at the concrete two-step pipeline whose hard gate fails. -/
theorem hard_gate_fail_closed_witness :
    c7_dag.order.Nodup ∧
    executePipeline c7_dag c7_sf "run_c7" none = Except.ok c1_final ∧
    FailClosed c7_dag c1_final :=
  ⟨by decide, rfl,
   hard_gate_fail_closed c7_dag c7_sf "run_c7" none c1_final (by decide) rfl⟩

/-- The trace checker splits over appends. -/
theorem trace_ok_append (ok : List TraceAction → TraceAction → Bool) :
    ∀ (t1 : List TraceAction) (pre t2 : List TraceAction),
      trace_ok_from ok pre (t1 ++ t2) =
        (trace_ok_from ok pre t1 && trace_ok_from ok (pre ++ t1) t2) := by
  intro t1
  induction t1 with
  | nil =>
    intro pre t2
    simp [trace_ok_from]
  | cons a t1 ihl =>
    intro pre t2
    simp only [List.cons_append, trace_ok_from]
    rw [show t1.append t2 = t1 ++ t2 from rfl, ihl]
    simp [List.append_assoc, Bool.and_assoc]

/-- The amended per-action condition is monotone in the prefix: what held of a
prefix still holds when earlier actions are prepended. -/
theorem action_ok_amended_mono (pre0 pre : List TraceAction) (a : TraceAction)
    (h : action_ok_amended pre a = true) :
    action_ok_amended (pre0 ++ pre) a = true := by
  cases a with
  | append e =>
    simp only [action_ok_amended] at h ⊢
    by_cases hty : (e.event_type == EventType.step_retried) = true
    · rw [if_pos hty] at h ⊢
      cases hsid : e.step_id with
      | none => simp only [hsid] at h; cases h
      | some sid =>
        simp only [hsid] at h ⊢
        simp only [List.contains_iff_exists_mem_beq] at h ⊢
        obtain ⟨b, hb, hbeq⟩ := h
        exact ⟨b, List.mem_append.mpr (Or.inr hb), hbeq⟩
    · rw [if_neg hty]
  | set_run_state v =>
    simp only [action_ok_amended, logged, List.any_append] at h ⊢
    rw [h]
    simp
  | set_step_state id v =>
    simp only [action_ok_amended] at h ⊢
    cases v <;> simp_all [logged, List.any_append]
  | set_step_attempt id v =>
    simp [action_ok_amended]
  | add_completed id =>
    simp only [action_ok_amended, logged, List.any_append] at h ⊢
    rw [h]
    simp
  | add_failed_hard_gate id =>
    simp only [action_ok_amended, logged, List.any_append] at h ⊢
    rw [h]
    simp

/-- Appending one action keeps a trace good when the action's own condition
holds of the existing trace. -/
theorem traceOkA_snoc (tr : List TraceAction) (a : TraceAction)
    (hg : log_before_update_amended tr = true)
    (ha : action_ok_amended tr a = true) :
    log_before_update_amended (tr ++ [a]) = true := by
  simp only [log_before_update_amended] at hg ⊢
  rw [trace_ok_append]
  simp only [List.nil_append, trace_ok_from, hg, ha, Bool.and_true, Bool.true_and]

/-- One executor pass preserves trace goodness, provided the retry
continuation does so on states whose trace already logs a step.failed for
this step. -/
theorem executeStepOnce_traceOkA (sf : StepFunctions) (step : StepDefinition)
    (k : ExecState → Bool × ExecState) (s : ExecState)
    (hk : ∀ s5, log_before_update_amended s5.trace = true →
      logged s5.trace (fun e => isFailedFor e step.step_id) = true →
      log_before_update_amended ((k s5).2.trace) = true)
    (hg : log_before_update_amended s.trace = true) :
    log_before_update_amended ((executeStepOnce sf step k s).2.trace) = true := by
  rcases hf : sf step.step_id with _ | f
  · simp only [executeStepOnce, hf]
    apply traceOkA_snoc
    · apply traceOkA_snoc _ _ hg
      simp [action_ok_amended, step_failed]
    · simp [emit_and_fail, appendEvent, action_ok_amended, logged,
        List.any_append, isFailedFor, step_failed]
  · simp only [executeStepOnce, hf]
    have hg2 : log_before_update_amended ((setStepState (appendEvent s
        (step_started s.ctx.run_id step.step_id (s.ctx.step_attempts step.step_id)))
        step.step_id StepState.running).trace) = true := by
      apply traceOkA_snoc
      · apply traceOkA_snoc _ _ hg
        simp [action_ok_amended, step_started]
      · simp [appendEvent, action_ok_amended, logged, List.any_append,
          isStartedFor, step_started]
    rcases hr : f (setStepState (appendEvent s (step_started s.ctx.run_id step.step_id
        (s.ctx.step_attempts step.step_id))) step.step_id StepState.running).ctx
        step.step_id with ⟨ok, ec, msg⟩
    cases ok
    · simp only [hr]
      have hg3 : log_before_update_amended ((appendEvent (setStepState (appendEvent s
          (step_started s.ctx.run_id step.step_id (s.ctx.step_attempts step.step_id)))
          step.step_id StepState.running)
          (step_failed s.ctx.run_id step.step_id (ec.getD ErrorClass.unknown)
            (msg.getD "Step failed") (s.ctx.step_attempts step.step_id))).trace) = true := by
        apply traceOkA_snoc _ _ hg2
        simp [action_ok_amended, step_failed]
      by_cases hh : step.is_hard_gate
      · simp only [hh, if_true]
        apply traceOkA_snoc
        · apply traceOkA_snoc
          · apply traceOkA_snoc _ _ hg3
            simp [action_ok_amended, gate_failed]
          · simp [appendEvent, setStepState, action_ok_amended, logged,
              List.any_append, isGateFailedFor, gate_failed]
        · simp [appendEvent, setStepState, addFailedHardGate, action_ok_amended,
            logged, List.any_append, isFailedFor, step_failed]
      · rw [if_neg (by simp [hh])]
        by_cases hretry : RetryPolicy.allows_retry step (ec.getD ErrorClass.unknown)
            (s.ctx.step_attempts step.step_id)
        · simp only [hretry, if_true]
          apply hk
          · apply traceOkA_snoc
            · apply traceOkA_snoc _ _ hg3
              simp [action_ok_amended]
            · simp [appendEvent, setStepState, setStepAttempt, action_ok_amended,
                step_retried, setKey_same, List.contains_iff_exists_mem_beq]
          · simp [appendEvent, setStepState, setStepAttempt, logged,
              List.any_append, isFailedFor, step_failed]
        · simp only [hretry, if_false, Bool.false_eq_true]
          apply traceOkA_snoc _ _ hg3
          simp [appendEvent, setStepState, action_ok_amended, logged,
            List.any_append, isFailedFor, step_failed]
    · simp only [hr]
      apply traceOkA_snoc
      · apply traceOkA_snoc
        · apply traceOkA_snoc _ _ hg2
          simp [action_ok_amended, step_succeeded]
        · simp [appendEvent, setStepState, action_ok_amended, logged,
            List.any_append, isSucceededFor, step_succeeded]
      · simp [appendEvent, setStepState, addCompleted, action_ok_amended, logged,
          List.any_append, isSucceededFor, step_succeeded]

/-- The fueled step execution preserves trace goodness. -/
theorem executeStepGo_traceOkA (sf : StepFunctions) (step : StepDefinition) :
    ∀ (fuel : Nat) (s : ExecState),
      log_before_update_amended s.trace = true →
      log_before_update_amended ((executeStepGo sf step fuel s).2.trace) = true := by
  intro fuel
  induction fuel with
  | zero =>
    intro s hg
    show log_before_update_amended ((executeStepOnce sf step _ s).2.trace) = true
    apply executeStepOnce_traceOkA sf step _ s _ hg
    intro s5 hg5 hlog5
    apply traceOkA_snoc _ _ hg5
    simp only [action_ok_amended]
    simpa [logged, isFailedFor] using hlog5
  | succ fuel ihf =>
    intro s hg
    apply executeStepOnce_traceOkA sf step _ s _ hg
    intro s5 hg5 _
    exact ihf s5 hg5

/-- execute_step preserves trace goodness. -/
theorem executeStep_traceOkA (sf : StepFunctions) (s : ExecState)
    (step : StepDefinition) (hg : log_before_update_amended s.trace = true) :
    log_before_update_amended ((executeStep sf s step).2.trace) = true :=
  executeStepGo_traceOkA sf step _ s hg

/-- The downstream-skip loop preserves trace goodness (a skip mutation is not
one of the five logged operations and carries no condition). -/
theorem skipPending_traceOkA (ds : List String) :
    ∀ s : ExecState, log_before_update_amended s.trace = true →
      log_before_update_amended ((skipPendingDownstream s ds).trace) = true := by
  induction ds with
  | nil => intro s hg; exact hg
  | cons d rest ihl =>
    intro s hg
    simp only [skipPendingDownstream, List.foldl_cons]
    by_cases hd : s.ctx.step_states d = StepState.pending
    · rw [if_pos hd]
      apply ihl
      apply traceOkA_snoc _ _ hg
      simp [action_ok_amended]
    · rw [if_neg hd]
      exact ihl s hg

/-- A validated run-state transition preserves trace goodness. -/
theorem transition_traceOkA (s : ExecState) (v : RunState) (reason : Option String)
    (s2 : ExecState) (h : transition_run_state s v reason = Except.ok s2)
    (hg : log_before_update_amended s.trace = true) :
    log_before_update_amended s2.trace = true := by
  simp only [transition_run_state] at h
  split at h
  · cases h
    apply traceOkA_snoc
    · apply traceOkA_snoc _ _ hg
      simp [action_ok_amended, run_state_changed]
    · simp [appendEvent, action_ok_amended, logged, List.any_append,
        describesRunState, run_state_changed]
  · cases h

/-- fail_run preserves trace goodness. -/
theorem fail_run_traceOkA (s : ExecState) (reason : String) (s2 : ExecState)
    (h : fail_run s reason = Except.ok s2)
    (hg : log_before_update_amended s.trace = true) :
    log_before_update_amended s2.trace = true := by
  simp only [fail_run, bind, Except.bind] at h
  split at h
  · cases htr : transition_run_state s RunState.failed (some reason) with
    | error m => rw [htr] at h; cases h
    | ok s1 =>
      rw [htr] at h
      cases h
      apply traceOkA_snoc _ _ (transition_traceOkA s _ _ s1 htr hg)
      simp [action_ok_amended, run_completed]
  · cases h
    apply traceOkA_snoc _ _ hg
    simp [action_ok_amended, run_completed]

/-- complete_run preserves trace goodness. -/
theorem complete_run_traceOkA (s : ExecState) (v : RunState) (reason : String)
    (s2 : ExecState) (h : complete_run s v reason = Except.ok s2)
    (hg : log_before_update_amended s.trace = true) :
    log_before_update_amended s2.trace = true := by
  simp only [complete_run, bind, Except.bind] at h
  split at h
  · cases htr : transition_run_state s v (some reason) with
    | error m => rw [htr] at h; cases h
    | ok s1 =>
      rw [htr] at h
      cases h
      apply traceOkA_snoc _ _ (transition_traceOkA s _ _ s1 htr hg)
      simp [action_ok_amended, run_completed]
  · cases h
    apply traceOkA_snoc _ _ hg
    simp [action_ok_amended, run_completed]

/-- The step loop preserves trace goodness. -/
theorem executeSteps_traceOkA (dag : PipelineDAG) (sf : StepFunctions) :
    ∀ (rest : List String) (s s' : ExecState),
      executeSteps dag sf rest s = Except.ok s' →
      log_before_update_amended s.trace = true →
      log_before_update_amended s'.trace = true := by
  intro rest
  induction rest with
  | nil =>
    intro s s' hrun hg
    simp only [executeSteps] at hrun
    split at hrun
    · exact complete_run_traceOkA s _ _ s' hrun hg
    · exact fail_run_traceOkA s _ s' hrun hg
  | cons id rest' ihl =>
    intro s s' hrun hg
    simp only [executeSteps] at hrun
    cases hget : dag.get_step id with
    | none =>
      rw [hget] at hrun
      exact ihl s s' hrun hg
    | some step =>
      rw [hget] at hrun
      cases hcan : (dag.can_execute_step id s.ctx.completed_steps
          s.ctx.failed_hard_gates).1
      · rw [hcan] at hrun
        simp only [Bool.false_eq_true, if_false] at hrun
        refine ihl _ s' hrun ?_
        apply traceOkA_snoc _ _ hg
        simp [action_ok_amended]
      · rw [hcan] at hrun
        simp only [if_true] at hrun
        have hg1 := executeStep_traceOkA sf s step hg
        cases hr1 : (executeStep sf s step).1
        · rw [hr1] at hrun
          simp only [Bool.false_eq_true, if_false] at hrun
          cases hhard : step.is_hard_gate
          · rw [hhard] at hrun
            simp only [Bool.false_eq_true, if_false] at hrun
            exact ihl _ s' hrun hg1
          · rw [hhard] at hrun
            simp only [if_true] at hrun
            exact fail_run_traceOkA _ _ s' hrun
              (skipPending_traceOkA _ _ hg1)
        · rw [hr1] at hrun
          simp only [if_true] at hrun
          exact ihl _ s' hrun hg1

/-- C4 amended: in every fresh run of the pipeline executor, every mutation of
the five logged operations (run-state transition, step start, step success,
step failure, step retry) is preceded in the trace by the event describing
it, except the retry counter, which the executor increments before appending
the step.retried event that carries it (and that append is always preceded by
the matching counter update). -/
theorem log_precedes_memory_amended (dag : PipelineDAG) (sf : StepFunctions)
    (rid : String) (reason : Option String) (s' : ExecState)
    (hexec : executePipeline dag sf rid reason = Except.ok s') :
    log_before_update_amended s'.trace = true := by
  rw [executePipeline_eq_loop] at hexec
  refine executeSteps_traceOkA dag sf dag.order _ s' hexec ?_
  have hst : (start dag rid reason).trace =
      [TraceAction.append (run_created rid reason)] :=
    (start_fields dag rid reason).2.2.2.2.2.2
  simp only [loopEntry, setRunState, appendEvent, hst]
  simp [log_before_update_amended, trace_ok_from, action_ok_amended, logged,
    describesRunState, run_created, run_state_changed, RunState.value]

/-- The final state of the C4 retry scenario (fallback never taken). -/
def c4_final : ExecState :=
  match executePipeline c4_dag c4_sf "run_c4" none with
  | Except.ok s => s
  | Except.error _ => start c4_dag "run_c4" none

/-- Witness for the C4 amended theorem at the concrete retrying run. -/
theorem log_precedes_memory_amended_witness :
    executePipeline c4_dag c4_sf "run_c4" none = Except.ok c4_final ∧
    log_before_update_amended c4_final.trace = true :=
  ⟨rfl, log_precedes_memory_amended c4_dag c4_sf "run_c4" none c4_final rfl⟩

/-- After a dict assignment the assigned key is among the keys. -/
theorem mem_keys_dictSet_self {α : Type} (l : List (String × α)) (k : String)
    (v : α) : k ∈ (dictSet l k v).map Prod.fst := by
  simp only [dictSet]
  split
  · rename_i hany
    rw [List.any_eq_true] at hany
    rcases hany with ⟨p, hp, hbeq⟩
    refine List.mem_map.mpr ⟨(k, v), List.mem_map.mpr ⟨p, hp, ?_⟩, rfl⟩
    simp [hbeq]
  · simp

/-- A dict assignment never loses a key. -/
theorem mem_keys_dictSet_of_mem {α : Type} (l : List (String × α)) (k : String)
    (v : α) (x : String) (hx : x ∈ l.map Prod.fst) :
    x ∈ (dictSet l k v).map Prod.fst := by
  simp only [dictSet]
  split
  · rcases List.mem_map.mp hx with ⟨p, hp, hpx⟩
    refine List.mem_map.mpr ⟨if (p.1 == k) = true then (k, v) else p,
      List.mem_map.mpr ⟨p, hp, rfl⟩, ?_⟩
    by_cases hb : (p.1 == k) = true
    · rw [if_pos hb]
      rw [← hpx]
      exact (eq_of_beq hb).symm
    · rw [if_neg hb]
      exact hpx
  · rw [List.map_append, List.mem_append]
    exact Or.inl hx

/-- Replaying one event never loses a step_states key. -/
theorem summaryApplyEvent_keys_mono (acc acc1 : SummaryAcc) (e : Event)
    (happ : summaryApplyEvent acc e = Except.ok acc1) (x : String)
    (hx : x ∈ acc.step_states.map Prod.fst) :
    x ∈ acc1.step_states.map Prod.fst := by
  cases he : e.event_type <;> simp only [summaryApplyEvent, he] at happ
  case step_started | step_succeeded | step_failed =>
    cases hsid : e.step_id with
    | none => rw [hsid] at happ; cases happ
    | some sid =>
      rw [hsid] at happ
      cases happ
      exact mem_keys_dictSet_of_mem _ _ _ _ hx
  case run_state_changed | run_completed =>
    cases hns : e.new_state with
    | none => simp only [hns] at happ; cases happ
    | some ns =>
      simp only [hns] at happ
      cases hrs : RunState.fromString ns with
      | none => simp only [hrs] at happ; cases happ
      | some st =>
        simp only [hrs] at happ
        cases happ
        exact hx
  case gate_failed =>
    cases hsid : e.step_id with
    | none => rw [hsid] at happ; cases happ
    | some sid =>
      rw [hsid] at happ
      cases happ
      exact hx
  all_goals (cases happ; exact hx)

/-- Replaying a step outcome event records its step id among the keys. -/
theorem summaryApplyEvent_adds_key (acc acc1 : SummaryAcc) (e : Event)
    (sid : String) (happ : summaryApplyEvent acc e = Except.ok acc1)
    (hty : e.event_type = EventType.step_started ∨
      e.event_type = EventType.step_succeeded ∨
      e.event_type = EventType.step_failed)
    (hsid : e.step_id = some sid) :
    sid ∈ acc1.step_states.map Prod.fst := by
  rcases hty with he | he | he <;>
    (simp only [summaryApplyEvent, he, hsid] at happ
     cases happ
     exact mem_keys_dictSet_self _ _ _)

/-- The whole replay never loses a step_states key. -/
theorem summary_fold_keys_mono (evs : List Event) :
    ∀ (acc acc' : SummaryAcc), evs.foldlM summaryApplyEvent acc = Except.ok acc' →
      ∀ x ∈ acc.step_states.map Prod.fst, x ∈ acc'.step_states.map Prod.fst := by
  induction evs with
  | nil =>
    intro acc acc' h x hx
    simp only [List.foldlM_nil] at h
    cases h
    exact hx
  | cons e evs ihl =>
    intro acc acc' h x hx
    simp only [List.foldlM_cons] at h
    cases happ : summaryApplyEvent acc e with
    | error m => rw [happ] at h; cases h
    | ok acc1 =>
      rw [happ] at h
      simp only [bind, Except.bind] at h
      exact ihl acc1 acc' h x (summaryApplyEvent_keys_mono acc acc1 e happ x hx)

/-- Every replayed step outcome event leaves its step id among the keys. -/
theorem summary_fold_keys_complete (evs : List Event) :
    ∀ (acc acc' : SummaryAcc), evs.foldlM summaryApplyEvent acc = Except.ok acc' →
      ∀ e ∈ evs,
        (e.event_type = EventType.step_started ∨
         e.event_type = EventType.step_succeeded ∨
         e.event_type = EventType.step_failed) →
        ∀ sid, e.step_id = some sid → sid ∈ acc'.step_states.map Prod.fst := by
  induction evs with
  | nil =>
    intro acc acc' _ e he
    cases he
  | cons e0 evs ihl =>
    intro acc acc' h e he hty sid hsid
    simp only [List.foldlM_cons] at h
    cases happ : summaryApplyEvent acc e0 with
    | error m => rw [happ] at h; cases h
    | ok acc1 =>
      rw [happ] at h
      simp only [bind, Except.bind] at h
      rcases List.mem_cons.mp he with he0 | hees
      · subst he0
        exact summary_fold_keys_mono evs acc1 acc' h sid
          (summaryApplyEvent_adds_key acc acc1 e sid happ hty hsid)
      · exact ihl acc1 acc' h e hees hty sid hsid

/-- C7 amended: the generated summary carries a per-step entry exactly for the
steps that emitted at least one step.started, step.succeeded or step.failed
event — every entry traces back to such an event, and every such event's step
receives an entry; steps skipped by the executor emit no event (skipping is
in-memory only), so they never appear, and the skipped count is always zero. -/
theorem summary_entries_exactly_evented_steps (events : List Event)
    (m : RunSummary) (h : SummaryGenerator.generate events = Except.ok m) :
    m.skipped_steps = 0 ∧
    (∀ st ∈ m.steps, ∃ e ∈ events, e.step_id = some st.step_id ∧
      (e.event_type = EventType.step_started ∨
       e.event_type = EventType.step_succeeded ∨
       e.event_type = EventType.step_failed)) ∧
    (∀ e ∈ events,
      (e.event_type = EventType.step_started ∨
       e.event_type = EventType.step_succeeded ∨
       e.event_type = EventType.step_failed) →
      ∀ sid, e.step_id = some sid → ∃ st ∈ m.steps, st.step_id = sid) := by
  match events, h with
  | first :: rest, h =>
    simp only [SummaryGenerator.generate] at h
    cases hfold : (first :: rest).foldlM summaryApplyEvent
        { final_state := RunState.created, completed_at := none, step_states := [],
          step_attempts := [], step_start_times := [], step_errors := [],
          gate_failures := [], retry_count := 0 } with
    | error msg => rw [hfold] at h; cases h
    | ok acc =>
      rw [hfold] at h
      simp only [bind, Except.bind, Except.ok.injEq] at h
      have hstates := summary_fold_states (first :: rest) _ acc hfold
      have hmem : ∀ p ∈ acc.step_states,
          p.2 ≠ StepState.skipped ∧ ∃ e ∈ first :: rest, e.step_id = some p.1 ∧
            (e.event_type = EventType.step_started ∨
             e.event_type = EventType.step_succeeded ∨
             e.event_type = EventType.step_failed) := by
        intro p hp
        rcases hstates p hp with h0 | hres
        · cases h0
        · exact hres
      refine ⟨?_, ?_, ?_⟩
      · rw [← h]
        simp only
        rw [List.length_eq_zero, List.filter_eq_nil]
        intro st hst
        rcases List.mem_map.mp hst with ⟨k, hk, hbuild⟩
        rw [← hbuild]
        simp only [buildStepSummary, beq_iff_eq]
        cases hlk : acc.step_states.lookup k with
        | none => simp
        | some v =>
          have := (hmem (k, v) (lookup_mem _ _ _ hlk)).1
          simpa using this
      · intro st hst
        rw [← h] at hst
        simp only at hst
        rcases List.mem_map.mp hst with ⟨k, hk, hbuild⟩
        have hk0 : k ∈ acc.step_states.map Prod.fst := (mem_sortStrings k _).mp hk
        rcases List.mem_map.mp hk0 with ⟨p, hp, hpk⟩
        rcases (hmem p hp).2 with ⟨e, he, hsid, hty⟩
        refine ⟨e, he, ?_, hty⟩
        rw [← hbuild]
        simp only [buildStepSummary]
        rw [hpk] at hsid
        exact hsid
      · intro e he hty sid hsid
        have hkey : sid ∈ acc.step_states.map Prod.fst :=
          summary_fold_keys_complete (first :: rest) _ acc hfold e he hty sid hsid
        refine ⟨buildStepSummary acc sid, ?_, rfl⟩
        rw [← h]
        simp only
        exact List.mem_map.mpr ⟨sid, (mem_sortStrings sid _).mpr hkey, rfl⟩

/-- The finalized event log of the C7 scenario run. -/
def c7_log : List Event :=
  match executePipeline c7_dag c7_sf "run_c7" none with
  | Except.ok s => s.log
  | Except.error _ => []

/-- The summary generated from the C7 log (fallback is never taken). -/
def c7_summary : RunSummary :=
  match SummaryGenerator.generate c7_log with
  | Except.ok m => m
  | Except.error _ => { run_id := "", final_state := RunState.created, created_at := "" }

/-- Witness for the strengthened C7 theorem at the concrete
hard-gate-failure log. -/
theorem summary_entries_exactly_evented_steps_witness :
    SummaryGenerator.generate c7_log = Except.ok c7_summary ∧
    (c7_summary.skipped_steps = 0 ∧
     (∀ st ∈ c7_summary.steps, ∃ e ∈ c7_log, e.step_id = some st.step_id ∧
       (e.event_type = EventType.step_started ∨
        e.event_type = EventType.step_succeeded ∨
        e.event_type = EventType.step_failed)) ∧
     (∀ e ∈ c7_log,
       (e.event_type = EventType.step_started ∨
        e.event_type = EventType.step_succeeded ∨
        e.event_type = EventType.step_failed) →
       ∀ sid, e.step_id = some sid → ∃ st ∈ c7_summary.steps, st.step_id = sid)) :=
  ⟨rfl, summary_entries_exactly_evented_steps c7_log c7_summary rfl⟩

/-- execute_step with no registered callable: the no-implementation branch. -/
theorem executeStep_no_callable (sf : StepFunctions) (s : ExecState)
    (step : StepDefinition) (hf : sf step.step_id = none) :
    executeStep sf s step = (false, emit_and_fail s step ErrorClass.unknown
      ("No implementation for step: " ++ step.step_id)) := by
  show executeStepOnce sf step (executeStepGo sf step step.max_retries) s = _
  simp [executeStepOnce, hf]

/-- emit_and_fail leaves the states of other steps alone. -/
theorem emit_and_fail_states_other (s : ExecState) (step : StepDefinition)
    (ecl : ErrorClass) (r : String) (x : String) (hx : x ≠ step.step_id) :
    (emit_and_fail s step ecl r).ctx.step_states x = s.ctx.step_states x := by
  simp only [emit_and_fail, appendEvent, setStepState]
  simp [setKey, hx]

/-- The hard-gate consequence of a missing callable, over a finished run: if a
step g is a declared hard gate with no registered callable and the log shows a
step.failed for g (so g came to execute), then the run ended FAILED with every
step downstream of g SKIPPED, while failed_hard_gates stayed empty and no
gate.failed event exists anywhere in the log. -/
def MissingGateClosed (dag : PipelineDAG) (sf : StepFunctions) (s' : ExecState) : Prop :=
  ∀ (g : String) (stp : StepDefinition),
    dag.get_step g = some stp → stp.is_hard_gate = true → sf g = none →
    (∃ e ∈ s'.log, e.event_type = EventType.step_failed ∧ e.step_id = some g) →
    s'.ctx.run_state = RunState.failed ∧
    s'.ctx.failed_hard_gates = [] ∧
    (∀ e ∈ s'.log, e.event_type ≠ EventType.gate_failed) ∧
    (∀ d ∈ dag.get_downstream_steps g, s'.ctx.step_states d = StepState.skipped)

/-- Loop invariant for MissingGateClosed: no step.failed has been logged yet
for any hard gate lacking a callable. -/
def NoMissingGateFailure (dag : PipelineDAG) (sf : StepFunctions) (s : ExecState) : Prop :=
  ∀ (g : String) (stp : StepDefinition),
    dag.get_step g = some stp → stp.is_hard_gate = true → sf g = none →
    ∀ e ∈ s.log, ¬(e.event_type = EventType.step_failed ∧ e.step_id = some g)

/-- The step loop establishes MissingGateClosed from the fresh-run invariant. -/
theorem executeSteps_missingGateClosed (dag : PipelineDAG) (sf : StepFunctions)
    (hnd : dag.order.Nodup) :
    ∀ (rest : List String) (s s' : ExecState),
      LoopInv dag rest s →
      NoMissingGateFailure dag sf s →
      executeSteps dag sf rest s = Except.ok s' →
      MissingGateClosed dag sf s' := by
  intro rest
  induction rest with
  | nil =>
    intro s s' hinv hnmg hrun
    obtain ⟨h1, h2, h3, _, _, _⟩ := hinv
    simp only [executeSteps, h2, List.isEmpty_nil, if_true] at hrun
    rw [complete_run_executing s _ h1] at hrun
    cases hrun
    intro g stp hget hhard hsf ⟨e, he, hety, hesid⟩
    rw [log_append_event, log_set_run_state, log_append_event] at he
    rcases List.mem_append.mp he with he | he
    · rcases List.mem_append.mp he with he | he
      · exact absurd ⟨hety, hesid⟩ (hnmg g stp hget hhard hsf e he)
      · simp only [List.mem_singleton] at he
        rw [he] at hety
        cases hety
    · simp only [List.mem_singleton] at he
      rw [he] at hety
      cases hety
  | cons id rest' ihl =>
    intro s s' hinv hnmg hrun
    obtain ⟨h1, h2, h3, ⟨k, hk⟩, h5, h6⟩ := hinv
    have hsuffix : dag.order.drop (k + 1) = rest' := by
      have : dag.order.drop (k + 1) = (dag.order.drop k).drop 1 := by
        rw [List.drop_drop]
      rw [this, hk]
      rfl
    have hnotin : id ∉ rest' := by
      have hdn : (id :: rest').Nodup := by
        rw [← hk]
        exact hnd.sublist (List.drop_sublist k dag.order)
      exact (List.nodup_cons.mp hdn).1
    simp only [executeSteps] at hrun
    cases hget : dag.get_step id with
    | none =>
      rw [hget] at hrun
      refine ihl s s' ⟨h1, h2, h3, ⟨k + 1, hsuffix⟩, ?_, ?_⟩ hnmg hrun
      · intro x hx
        exact h5 x (List.mem_cons_of_mem id hx)
      · intro e he x hx
        exact h6 e he x (List.mem_cons_of_mem id hx)
    | some step =>
      have hstepid : step.step_id = id := by
        have := List.find?_some hget
        exact eq_of_beq this
      rw [hget] at hrun
      cases hcan : (dag.can_execute_step id s.ctx.completed_steps
          s.ctx.failed_hard_gates).1
      · rw [hcan] at hrun
        simp only [Bool.false_eq_true, if_false] at hrun
        refine ihl (setStepState s id StepState.skipped) s'
          ⟨h1, h2, ?_, ⟨k + 1, hsuffix⟩, ?_, ?_⟩ ?_ hrun
        · intro e he
          rw [log_set_step_state] at he
          exact h3 e he
        · intro x hx
          rw [setStepState_states_other s id x _ (fun hxe => hnotin (hxe ▸ hx))]
          exact h5 x (List.mem_cons_of_mem id hx)
        · intro e he x hx
          rw [log_set_step_state] at he
          exact h6 e he x (List.mem_cons_of_mem id hx)
        · intro g stp hget2 hhard2 hsf2 e he
          rw [log_set_step_state] at he
          exact hnmg g stp hget2 hhard2 hsf2 e he
      · rw [hcan] at hrun
        simp only [if_true] at hrun
        obtain ⟨hq1, hq2, hq3, ⟨delta, hd1, hd2, hd3⟩, hq5⟩ :=
          executeStep_stepSpec sf s step
        have hnmg' : (executeStep sf s step).1 = true ∨ step.is_hard_gate = false →
            NoMissingGateFailure dag sf (executeStep sf s step).2 := by
          intro hok g stp hget2 hhard2 hsf2 e he
          rw [hd1] at he
          rcases List.mem_append.mp he with he | he
          · exact hnmg g stp hget2 hhard2 hsf2 e he
          · intro ⟨hety, hesid⟩
            rw [hd2 e he] at hesid
            cases hesid
            rw [hstepid] at hget2
            rw [hget] at hget2
            cases hget2
            rcases hok with hok | hok
            · rw [executeStep_no_callable sf s step hsf2] at hok
              cases hok
            · rw [hok] at hhard2
              cases hhard2
        cases hr1 : (executeStep sf s step).1
        · rw [hr1] at hrun
          simp only [Bool.false_eq_true, if_false] at hrun
          cases hhard : step.is_hard_gate
          · rw [hhard] at hrun
            simp only [Bool.false_eq_true, if_false] at hrun
            refine ihl (executeStep sf s step).2 s'
              ⟨?_, ?_, ?_, ⟨k + 1, hsuffix⟩, ?_, ?_⟩ (hnmg' (Or.inr hhard)) hrun
            · rw [hq1, h1]
            · rw [hq5 (Or.inr hhard), h2]
            · intro e he
              rw [hd1] at he
              rcases List.mem_append.mp he with he | he
              · exact h3 e he
              · exact hd3 (Or.inr hhard) e he
            · intro x hx
              have hxid : x ≠ step.step_id := by
                rw [hstepid]
                intro hxe
                exact hnotin (hxe ▸ hx)
              rw [(hq3 x hxid).1]
              exact h5 x (List.mem_cons_of_mem id hx)
            · intro e he x hx
              rw [hd1] at he
              rcases List.mem_append.mp he with he | he
              · exact h6 e he x (List.mem_cons_of_mem id hx)
              · rw [hd2 e he, hstepid]
                intro hcon
                cases hcon
                exact hnotin hx
          · rw [hhard] at hrun
            simp only [if_true] at hrun
            have hdown : dag.get_downstream_steps id = rest' :=
              downstream_of_drop dag k id rest' hnd hk
            obtain ⟨hs1, hs2, hs3, hs4, hs5, hs6⟩ :=
              skipPending_fields (dag.get_downstream_steps id)
                (executeStep sf s step).2
            have hrs : (skipPendingDownstream (executeStep sf s step).2
                (dag.get_downstream_steps id)).ctx.run_state = RunState.executing := by
              rw [hs2, hq1, h1]
            rw [fail_run_executing _ _ hrs] at hrun
            cases hrun
            intro g stp hget2 hhard3 hsf3 ⟨e, he, hety, hesid⟩
            rw [log_append_event, log_set_run_state, log_append_event] at he
            have hgid : g = id := by
              rcases List.mem_append.mp he with he | he
              · rcases List.mem_append.mp he with he | he
                · rw [hs1, hd1] at he
                  rcases List.mem_append.mp he with he | he
                  · exact absurd ⟨hety, hesid⟩ (hnmg g stp hget2 hhard3 hsf3 e he)
                  · have := hd2 e he
                    rw [hstepid] at this
                    rw [this] at hesid
                    cases hesid
                    rfl
                · simp only [List.mem_singleton] at he
                  rw [he] at hety
                  cases hety
              · simp only [List.mem_singleton] at he
                rw [he] at hety
                cases hety
            subst hgid
            rw [hget] at hget2
            cases hget2
            rw [← hstepid] at hsf3
            have hexeq := executeStep_no_callable sf s step hsf3
            obtain ⟨he1, he2, he3, he4, he5, he6⟩ := emit_and_fail_fields s step
              ErrorClass.unknown ("No implementation for step: " ++ step.step_id)
            refine ⟨rfl, ?_, ?_, ?_⟩
            · simp only [appendEvent, setRunState]
              rw [hs5, hexeq]
              simp only
              rw [he5, h2]
            · intro e2 he2m
              rw [log_append_event, log_set_run_state, log_append_event] at he2m
              rcases List.mem_append.mp he2m with he2m | he2m
              · rcases List.mem_append.mp he2m with he2m | he2m
                · rw [hs1, hexeq] at he2m
                  simp only at he2m
                  rw [he1] at he2m
                  rcases List.mem_append.mp he2m with he2m | he2m
                  · exact h3 e2 he2m
                  · simp only [List.mem_singleton] at he2m
                    rw [he2m]
                    simp [step_failed]
                · simp only [List.mem_singleton] at he2m
                  rw [he2m]
                  simp [run_state_changed]
              · simp only [List.mem_singleton] at he2m
                rw [he2m]
                simp [run_completed]
            · intro d hd
              rw [hdown] at hd
              show (skipPendingDownstream (executeStep sf s step).2
                (dag.get_downstream_steps g)).ctx.step_states d
                = StepState.skipped
              rw [skipPending_states]
              have hdid : d ≠ step.step_id := by
                rw [hstepid]
                intro hde
                exact hnotin (hde ▸ hd)
              have hpend : (executeStep sf s step).2.ctx.step_states d =
                  StepState.pending := by
                rw [(hq3 d hdid).1]
                exact h5 d (List.mem_cons_of_mem _ hd)
              rw [if_pos ⟨by rw [hdown]; exact hd, hpend⟩]
        · rw [hr1] at hrun
          simp only [if_true] at hrun
          refine ihl (executeStep sf s step).2 s'
            ⟨?_, ?_, ?_, ⟨k + 1, hsuffix⟩, ?_, ?_⟩ (hnmg' (Or.inl hr1)) hrun
          · rw [hq1, h1]
          · rw [hq5 (Or.inl hr1), h2]
          · intro e he
            rw [hd1] at he
            rcases List.mem_append.mp he with he | he
            · exact h3 e he
            · exact hd3 (Or.inl hr1) e he
          · intro x hx
            have hxid : x ≠ step.step_id := by
              rw [hstepid]
              intro hxe
              exact hnotin (hxe ▸ hx)
            rw [(hq3 x hxid).1]
            exact h5 x (List.mem_cons_of_mem id hx)
          · intro e he x hx
            rw [hd1] at he
            rcases List.mem_append.mp he with he | he
            · exact h6 e he x (List.mem_cons_of_mem id hx)
            · rw [hd2 e he, hstepid]
              intro hcon
              cases hcon
              exact hnotin hx

/-- C9 non-hard-gate scenario: step_a (not a hard gate) has no callable,
step_b depends on it and would succeed. -/
def c9n_dag : PipelineDAG :=
  { steps := [{ step_id := "step_a", name := "Step A" },
              { step_id := "step_b", name := "Step B" }] }

/-- Callables for the c9n scenario: only step_b is registered. -/
def c9n_sf : StepFunctions :=
  fun id =>
    if id = "step_b" then some (fun _ _ => (true, none, none)) else none

/-- C9 amended: with no callable registered for a step, execute_step emits
exactly one step.failed carrying class UNKNOWN, marks the step FAILED and
returns failure with no retry, no gate.failed, and failed_hard_gates left
untouched. When such a step is a declared hard gate anywhere in the pipeline
and the log of a finished fresh run shows it came to execute (a step.failed
for it), execute took the hard-gate branch even so (it tests is_hard_gate,
not the gate set): the run ended FAILED with every step downstream of the
gate SKIPPED, yet failed_hard_gates stayed empty and no gate.failed exists
anywhere in the log. When the step is not a hard gate the run can still end
SUCCEEDED: in the c9n pipeline the unimplemented step_a ends FAILED, its
dependent step_b ends SKIPPED (blocked only by the missing upstream
dependency), and the run completes SUCCEEDED with no gate activity. -/
theorem missing_callable_semantics :
    (∀ (sf : StepFunctions) (s : ExecState) (step : StepDefinition),
       sf step.step_id = none →
       executeStep sf s step = (false, emit_and_fail s step ErrorClass.unknown
         ("No implementation for step: " ++ step.step_id)) ∧
       (executeStep sf s step).2.ctx.failed_hard_gates = s.ctx.failed_hard_gates ∧
       (executeStep sf s step).2.log = s.log ++
         [step_failed s.ctx.run_id step.step_id ErrorClass.unknown
           ("No implementation for step: " ++ step.step_id)
           (s.ctx.step_attempts step.step_id)]) ∧
    (∀ (dag : PipelineDAG) (sf : StepFunctions) (rid : String)
       (reason : Option String) (s' : ExecState),
       dag.order.Nodup →
       executePipeline dag sf rid reason = Except.ok s' →
       MissingGateClosed dag sf s') ∧
    ((executePipeline c9n_dag c9n_sf "run_c9n" none).toOption.map (fun s =>
       (s.ctx.run_state, s.ctx.step_states "step_a", s.ctx.step_states "step_b",
        s.ctx.failed_hard_gates,
        s.log.any (fun e => e.event_type == EventType.gate_failed),
        s.log.getLast?.map (fun e => (e.event_type, e.new_state)))) =
      some (RunState.succeeded, StepState.failed, StepState.skipped, [], false,
        some (EventType.run_completed, some "succeeded")) ∧
     c9n_dag.can_execute_step "step_b" [] [] =
       (false, some (GateReason.missingUpstreamDependencies ["step_a"]))) := by
  refine ⟨?_, ?_, ?_, ?_⟩
  · intro sf s step hf
    refine ⟨executeStep_no_callable sf s step hf, ?_, ?_⟩
    · rw [executeStep_no_callable sf s step hf]
      exact (emit_and_fail_fields s step _ _).2.2.2.2.1
    · rw [executeStep_no_callable sf s step hf]
      exact (emit_and_fail_fields s step _ _).1
  · intro dag sf rid reason s' hnd hexec
    rw [executePipeline_eq_loop] at hexec
    obtain ⟨hl1, hl2, hl3, hl4, hl5, hl6, hl7⟩ := loopEntry_fields dag rid reason
    refine executeSteps_missingGateClosed dag sf hnd dag.order
      (loopEntry dag rid reason) s'
      ⟨hl1, hl4, ?_, ⟨0, rfl⟩, fun x _ => hl5 x, ?_⟩ ?_ hexec
    · intro e he
      rw [hl7] at he
      simp only [List.mem_cons, List.not_mem_nil, or_false] at he
      rcases he with he | he | he <;> (rw [he]; simp [run_created, run_state_changed])
    · intro e he x _
      rw [hl7] at he
      simp only [List.mem_cons, List.not_mem_nil, or_false] at he
      rcases he with he | he | he <;> (rw [he]; simp [run_created, run_state_changed])
    · intro g stp _ _ _ e he
      rw [hl7] at he
      simp only [List.mem_cons, List.not_mem_nil, or_false] at he
      rcases he with he | he | he <;> (rw [he]; simp [run_created, run_state_changed])
  · rfl
  · rfl
